import Mathlib

/- Verification of the packet DMA ring engine of the MediaTek mtk_eth_soc
   Ethernet driver (drivers/net/ethernet/mediatek/mtk_eth_soc.c), as a
   shallow embedding in Lean.

   Modelling conventions, used throughout:
   * Bus addresses of ring descriptors are identified with ring indices:
     mtk_qdma_phys_to_virt and txd_to_idx are the identity on this
     representation, and the txd2 next-descriptor word of a transmit
     descriptor stores the index of the next slot.  This follows the
     pointer-arithmetic in the source, where descriptor pointers and
     physical addresses are in fixed affine bijection with slot indices.
   * Machine words holding independent bit fields (txd3 of a transmit
     descriptor, rxd2 of a receive descriptor) are represented as records
     of their fields; the exact bit positions live in the missing header
     mtk_eth_soc.h and are never observed by the claims.  Fields that no
     claim observes (txd4 offload flags, VLAN words, hash words) are
     omitted.
   * The live DMA mappings of the device are carried as a ghost multiset
     of (bus address, length) pairs: dma_map_single / skb_frag_dma_map add
     a pair, dma_unmap_single / dma_unmap_page remove one.
   * Fallible kernel services (dma mapping, buffer allocation, the BPF
     program verdict, hardware register reads) are supplied by environment
     records of streams indexed by ghost attempt counters.
   * The embedding specialises to the queue-aware (MTK_QDMA) transmit path
     for mtk_tx_map / mtk_xdp_submit_frame, the configuration the claims
     cite; the legacy PDMA reclaim loop mtk_poll_tx_pdma is embedded
     separately since claim C10 cites it.  MTK_SOC_MT7628 and MTK_36BIT_DMA
     capabilities are not set, and hardware LRO is off (single receive
     ring), matching the default configuration the specification describes.
-/

namespace MtkEth

/-- Pointwise update of a function-backed array. -/
def upd {α : Type} (f : Nat → α) (i : Nat) (v : α) : Nat → α :=
  fun j => if j = i then v else f j

/-! ### Hang detector (mtk_hw_check_dma_hang) -/

/-- One sample of the hardware status registers read by
mtk_hw_check_dma_hang: the WDMA index and busy bits, the QDMA FSM and
forwarding words, per-MAC FSM activity and flow-control credit, and the
ADMA / PSE output-queue bits.  Boolean fields are the decoded conditions
of the corresponding FIELD_GET tests. -/
structure HangObs where
  wdidx : Nat
  wtx_busy : Bool
  cdm_full : Bool
  oq_free : Bool
  qfsm_hang : Bool
  qfwd_hang : Bool
  gdm1_tx : Bool
  gdm2_tx : Bool
  gmac1_tx : Bool
  gmac2_tx : Bool
  gdm1_fc : Nat
  gdm2_fc : Nat
  oq_hang : Bool
  cdm1_busy : Bool
  adma_busy : Bool
deriving Repr, DecidableEq

/-- The eth->reset fields read and written by mtk_hw_check_dma_hang. -/
structure ResetSt where
  wdidx : Nat
  wdma_hang_count : Nat
  qdma_hang_count : Nat
  adma_hang_count : Nat
deriving Repr, DecidableEq

/-- The WDMA (bridging-DMA) stall signature: unchanged WDMA index, transmit
DMA busy, CDM transmit FIFO not ready, and the relevant PSE output queues
empty. -/
def wdmaCond (st : ResetSt) (o : HangObs) : Bool :=
  decide (o.wdidx = st.wdidx) && o.wtx_busy && o.cdm_full && o.oq_free

/-- The QDMA (queue-DMA) stall signature: queue FSM stuck and forwarding
stuck, with one MAC showing transmit activity and near-zero flow-control
credit. -/
def qdmaCond (o : HangObs) : Bool :=
  o.qfsm_hang && o.qfwd_hang &&
    ((o.gdm1_tx && o.gmac1_tx && decide (o.gdm1_fc < 1)) ||
     (o.gdm2_tx && o.gmac2_tx && decide (o.gdm2_fc < 1)))

/-- The ADMA (reassembly-DMA) stall signature: PSE output-queue backlog,
CDM1 busy, and the ADMA receive front end idle. -/
def admaCond (o : HangObs) : Bool :=
  o.oq_hang && o.cdm1_busy && o.adma_busy

/-- One periodic hang check, mirroring mtk_hw_check_dma_hang: the three
signatures are evaluated in order (WDMA, then QDMA, then ADMA); the first
signature that holds bumps its own streak counter — firing when the counter
exceeds two — and jumps to the out label, skipping the later signatures and
the counter resets; only when no signature holds are all three counters
zeroed.  The wdidx sample is stored on every exit through out.  The mt7628
flag models the MTK_SOC_MT7628 early return. -/
def mtk_hw_check_dma_hang (mt7628 : Bool) (st : ResetSt) (o : HangObs) :
    Bool × ResetSt :=
  if mt7628 then (false, st)
  else if wdmaCond st o then
    if st.wdma_hang_count + 1 > 2 then
      (true, { st with wdma_hang_count := 0, wdidx := o.wdidx })
    else
      (false, { st with wdma_hang_count := st.wdma_hang_count + 1,
                        wdidx := o.wdidx })
  else if qdmaCond o then
    if st.qdma_hang_count + 1 > 2 then
      (true, { st with qdma_hang_count := 0, wdidx := o.wdidx })
    else
      (false, { st with qdma_hang_count := st.qdma_hang_count + 1,
                        wdidx := o.wdidx })
  else if admaCond o then
    if st.adma_hang_count + 1 > 2 then
      (true, { st with adma_hang_count := 0, wdidx := o.wdidx })
    else
      (false, { st with adma_hang_count := st.adma_hang_count + 1,
                        wdidx := o.wdidx })
  else
    (false, { st with wdma_hang_count := 0, qdma_hang_count := 0,
                      adma_hang_count := 0, wdidx := o.wdidx })

/-- State after one hang check. -/
def hangStep (st : ResetSt) (o : HangObs) : ResetSt :=
  (mtk_hw_check_dma_hang false st o).2

/-- Whether a sequence of periodic checks ever declares a hang (the monitor
work schedules the reset the first time mtk_hw_check_dma_hang returns
true). -/
def runHangChecks (st : ResetSt) : List HangObs → Bool
  | [] => false
  | o :: rest =>
    (mtk_hw_check_dma_hang false st o).1 || runHangChecks (hangStep st o) rest

/-! ### Transmit-side data model -/

/-- Per-SoC configuration constants consumed by the transmit path
(soc->tx in the source).  dma_max_len is the maximum per-descriptor
transfer length (MTK_TX_DMA_BUF_LEN in the missing header); the engine is
only ever instantiated with a positive value, recorded here as a
configuration invariant. -/
structure SocData where
  dma_max_len : Nat
  dma_max_len_pos : 0 < dma_max_len

/-- A queue-aware (QDMA) transmit descriptor.  txd1 is the buffer bus
address; txd2 is the next-descriptor pointer (a slot index under the
address/index identification); plen, ls0 and ownerCpu are the
TX_DMA_PLEN0, TX_DMA_LS0 and TX_DMA_OWNER_CPU fields of txd3, and qid the
TX_DMA_PQID field.  The txd4 word (forward port and offload flags) is not
modelled: no claim observes it. -/
structure TxDesc where
  txd1 : Nat
  txd2 : Nat
  plen : Nat
  ls0 : Bool
  ownerCpu : Bool
  qid : Nat
deriving Repr, DecidableEq

/-- The enum mtk_tx_buf_type; MTK_TYPE_SKB is the zero value written by
memset. -/
inductive TxBufType where
  | skbT
  | xdpTx
  | xdpNdo
deriving Repr, DecidableEq

/-- A network-stack packet (struct sk_buff), reduced to the fields the
transmit path reads: linear-head length, the sizes of the scatter-gather
fragments, the GSO flags, checksum and VLAN summary bits, and the queue
mapping.  skb->len is the total of head and fragments. -/
structure Skb where
  headlen : Nat
  frags : List Nat
  gso : Bool
  gsoTcp : Bool
  csum : Bool
  vlan : Bool
  vlan_tci : Nat
  queue : Nat
deriving Repr, DecidableEq

/-- skb->len: total packet length. -/
def Skb.len (s : Skb) : Nat := s.headlen + s.frags.sum

/-- skb_is_nonlinear: the packet has scatter-gather fragments. -/
def skb_is_nonlinear (s : Skb) : Bool := !s.frags.isEmpty

/-- A fast-path frame (struct xdp_frame): data length, fragments as
(size, pool bus address) pairs, headroom, and the page-pool bus address of
the head payload. -/
structure XdpFrame where
  len : Nat
  frags : List (Nat × Nat)
  headroom : Nat
  poolAddr : Nat
deriving Repr, DecidableEq

/-- The tx_buf->data field: NULL, the MTK_DMA_DUMMY_DESC sentinel, an
attached packet, or an attached fast-path frame. -/
inductive TxBufData where
  | null
  | dummy
  | skbData (s : Skb)
  | xdpData (f : XdpFrame)
deriving Repr, DecidableEq

/-- Per-slot buffer metadata (struct mtk_tx_buf), QDMA realisation: the
MTK_TX_FLAGS_SINGLE0 / MTK_TX_FLAGS_PAGE0 flag bits, the buffer kind and
attached object, the owning MAC, and the recorded unmap address/length
pair dma_addr0/dma_len0. -/
structure TxBuf where
  flagsSingle0 : Bool
  flagsPage0 : Bool
  typ : TxBufType
  data : TxBufData
  macId : Nat
  dmaAddr0 : Nat
  dmaLen0 : Nat
deriving Repr, DecidableEq

/-- The all-zero mtk_tx_buf written by memset. -/
def emptyTxBuf : TxBuf :=
  { flagsSingle0 := false, flagsPage0 := false, typ := .skbT, data := .null,
    macId := 0, dmaAddr0 := 0, dmaLen0 := 0 }

/-- The transmit ring (struct mtk_tx_ring): descriptor array, parallel
buffer-metadata array, ring depth, producer pointer next_free, consumer
sentinel last_free, the mirrored last_free_ptr register value, the atomic
free-slot counter, the PDMA consumer index cpu_idx, and the wake
threshold. -/
structure TxRing where
  dma : Nat → TxDesc
  buf : Nat → TxBuf
  dmaSize : Nat
  nextFree : Nat
  lastFree : Nat
  lastFreePtr : Nat
  freeCount : Int
  cpuIdx : Nat
  thresh : Nat

/-- The transmit-side state threaded through mtk_tx_map and the reclaim
path: the ring itself plus the ghost DMA bookkeeping (number of mapping
attempts so far, multiset of live mappings). -/
structure TxSt where
  ring : TxRing
  mapCnt : Nat
  mapped : Multiset (Nat × Nat)

/-- Environment of fallible kernel services used on the transmit path:
the outcome of the n-th bus-mapping attempt (dma_map_single /
skb_frag_dma_map), and whether skb_cow_head succeeds. -/
structure DmaEnv where
  mapOk : Nat → Option Nat
  cowOk : Bool

def TxSt.getDesc (s : TxSt) (i : Nat) : TxDesc := s.ring.dma i

def TxSt.getBuf (s : TxSt) (i : Nat) : TxBuf := s.ring.buf i

def TxSt.setDesc (s : TxSt) (i : Nat) (d : TxDesc) : TxSt :=
  { s with ring := { s.ring with dma := upd s.ring.dma i d } }

def TxSt.setBuf (s : TxSt) (i : Nat) (b : TxBuf) : TxSt :=
  { s with ring := { s.ring with buf := upd s.ring.buf i b } }

/-- One bus-mapping attempt (dma_map_single / skb_frag_dma_map followed by
the dma_mapping_error test): consumes the next entry of the environment
stream; on success the (address, length) pair joins the ghost multiset of
live mappings. -/
def dmaMapTx (env : DmaEnv) (s : TxSt) (len : Nat) : Option Nat × TxSt :=
  match env.mapOk s.mapCnt with
  | none => (none, { s with mapCnt := s.mapCnt + 1 })
  | some a =>
    (some a, { s with mapCnt := s.mapCnt + 1, mapped := (a, len) ::ₘ s.mapped })

/-- mtk_tx_unmap, QDMA branch: release the recorded mapping selected by the
flag bits, release the attached object, then clear flags and data (the
other fields of the metadata record are left as they were, as in the
source). -/
def mtk_tx_unmap (s : TxSt) (i : Nat) : TxSt :=
  let b := s.ring.buf i
  let s1 :=
    if b.flagsSingle0 then
      { s with mapped := s.mapped.erase (b.dmaAddr0, b.dmaLen0) }
    else if b.flagsPage0 then
      { s with mapped := s.mapped.erase (b.dmaAddr0, b.dmaLen0) }
    else s
  s1.setBuf i { b with flagsSingle0 := false, flagsPage0 := false,
                       data := .null }

/-- Descriptor-field bundle struct mtk_tx_dma_desc_info. -/
structure TxDescInfo where
  addr : Nat
  size : Nat
  qid : Nat
  first : Bool
  last : Bool
  gso : Bool
  csum : Bool
  vlan : Bool
  vlan_tci : Nat
deriving Repr, DecidableEq

/-- The all-zero bundle written by memset. -/
def zeroTxDescInfo : TxDescInfo :=
  { addr := 0, size := 0, qid := 0, first := false, last := false,
    gso := false, csum := false, vlan := false, vlan_tci := 0 }

/-- mtk_tx_set_dma_desc_v1: write txd1 (address) and txd3 (length, queue,
last flag; the ownership bit is left clear, handing the slot to the
device).  txd2 is not written, so the ring chain pointer is preserved; the
txd4 offload word is not modelled. -/
def mtk_tx_set_dma_desc_v1 (info : TxDescInfo) (old : TxDesc) : TxDesc :=
  { txd1 := info.addr
    txd2 := old.txd2
    plen := info.size
    ls0 := info.last
    ownerCpu := false
    qid := info.qid }

/-- Result of mtk_tx_map: 0 or -ENOMEM. -/
inductive TxRes where
  | ok
  | enomem
deriving Repr, DecidableEq

/-- Intermediate result of the fragment loop of mtk_tx_map: either a
failure (carrying the state and the current descriptor, from which
err_dma unwinds) or the continuation state with the current descriptor
and descriptor count. -/
inductive TxLoop where
  | fail (s : TxSt) (txd : Nat)
  | next (s : TxSt) (txd : Nat) (nDesc : Nat)

/-- The body of the err_dma unwind loop of mtk_tx_map: unmap the buffer of
the touched slot and rewrite its txd3 to TX_DMA_LS0 | TX_DMA_OWNER_CPU,
the empty host-owned value; txd1 and the txd2 chain pointer are left
alone. -/
def err_dma_step (s : TxSt) (i : Nat) : TxSt :=
  let s1 := mtk_tx_unmap s i
  s1.setDesc i { (s1.ring.dma i) with plen := 0, ls0 := true,
                                      ownerCpu := true, qid := 0 }

/-- The err_dma unwind of mtk_tx_map: a do-while walk from the head slot of
the failed submission along the txd2 chain, stopping when the failing
descriptor is reached.  The C loop terminates because the chain closes
through the ring; here the iteration count is bounded by the fuel
argument, instantiated with the ring depth. -/
def err_dma (s : TxSt) (itxd txd : Nat) : Nat → TxSt
  | 0 => s
  | fuel + 1 =>
    let s1 := err_dma_step s itxd
    let next := (s1.ring.dma itxd).txd2
    if next = txd then s1 else err_dma s1 next txd fuel

/-- The inner chunk loop of mtk_tx_map (while (frag_size) ...), QDMA
realisation: advance to the next chained descriptor (failing when the ring
is exhausted at last_free), split the fragment at the maximum
per-descriptor transfer length, map the chunk (failing on mapping error),
write the descriptor and its buffer metadata (the reusable-placeholder
sentinel with the PAGE0 flag), and continue with the remainder of the
fragment.  The C loop terminates because every chunk moves at least one
byte; the structural fuel argument (instantiated with the fragment size,
an iteration bound since dma_max_len is positive) makes that explicit. -/
def txMapChunks (soc : SocData) (env : DmaEnv) (queue macId : Nat)
    (isLastFrag : Bool) : Nat → TxSt → Nat → Nat → Nat → TxLoop
  | 0, s, txd, nDesc, _ => .next s txd nDesc
  | fuel + 1, s, txd, nDesc, fragSize =>
    if fragSize = 0 then .next s txd nDesc
    else
      let txd1 := (s.ring.dma txd).txd2
      if txd1 = s.ring.lastFree then .fail s txd1
      else
        let nDesc1 := nDesc + 1
        let size := min fragSize soc.dma_max_len
        let last := isLastFrag && decide (fragSize - size = 0)
        match dmaMapTx env s size with
        | (none, s1) => .fail s1 txd1
        | (some addr, s1) =>
          let info := { zeroTxDescInfo with size := size, qid := queue,
                                            last := last, addr := addr }
          let s2 := s1.setDesc txd1 (mtk_tx_set_dma_desc_v1 info
                      (s1.ring.dma txd1))
          let newBuf := { emptyTxBuf with data := .dummy,
                                          flagsPage0 := true,
                                          macId := macId, dmaAddr0 := addr,
                                          dmaLen0 := size }
          let s3 := s2.setBuf txd1 newBuf
          txMapChunks soc env queue macId isLastFrag fuel s3 txd1 nDesc1
            (fragSize - size)

/-- The outer fragment loop of mtk_tx_map over skb_shinfo(skb)->frags. -/
def txMapFrags (soc : SocData) (env : DmaEnv) (queue macId : Nat)
    (s : TxSt) (txd nDesc : Nat) : List Nat → TxLoop
  | [] => .next s txd nDesc
  | f :: rest =>
    match txMapChunks soc env queue macId rest.isEmpty f s txd nDesc f with
    | .fail sf txdf => .fail sf txdf
    | .next s1 txd1 n1 =>
      txMapFrags soc env queue macId s1 txd1 n1 rest

/-- mtk_tx_map, QDMA realisation: refuse when the producer has reached
last_free; zero the head metadata record, map and encode the head segment
(SINGLE0 flag), run the fragment loop, attach the packet to the head slot,
advance next_free along the chain and subtract the consumed descriptor
count from the free-slot counter.  On any mid-chain failure the err_dma
walk unwinds every slot written by this submission and the call returns
-ENOMEM.  The wmb and doorbell register writes are hardware-facing and not
modelled. -/
def mtk_tx_map (soc : SocData) (env : DmaEnv) (macId : Nat) (s : TxSt)
    (skb : Skb) (gso : Bool) : TxRes × TxSt :=
  let itxd := s.ring.nextFree
  if itxd = s.ring.lastFree then (.enomem, s)
  else
    let s1 := s.setBuf itxd emptyTxBuf
    match dmaMapTx env s1 skb.headlen with
    | (none, s2) => (.enomem, s2)
    | (some addr, s2) =>
      let info : TxDescInfo :=
        { addr := addr, size := skb.headlen, gso := gso, csum := skb.csum,
          vlan := skb.vlan, qid := skb.queue, vlan_tci := skb.vlan_tci,
          first := true, last := !skb_is_nonlinear skb }
      let s3 := s2.setDesc itxd (mtk_tx_set_dma_desc_v1 info
                  (s2.ring.dma itxd))
      let s4 := s3.setBuf itxd { (s3.ring.buf itxd) with
                  flagsSingle0 := true, macId := macId,
                  dmaAddr0 := addr, dmaLen0 := skb.headlen }
      match txMapFrags soc env skb.queue macId s4 itxd 1 skb.frags with
      | .fail sf txdf => (.enomem, err_dma sf itxd txdf sf.ring.dmaSize)
      | .next s5 txd nDesc =>
        let s6 := s5.setBuf itxd { (s5.ring.buf itxd) with
                    typ := .skbT, data := .skbData skb }
        let s7 := { s6 with ring := { s6.ring with
                      nextFree := (s6.ring.dma txd).txd2,
                      freeCount := s6.ring.freeCount - nDesc } }
        (.ok, s7)

/-- DIV_ROUND_UP from the kernel. -/
def DIV_ROUND_UP (n d : Nat) : Nat := (n + d - 1) / d

/-- mtk_cal_txd_req: descriptors required for a packet — one for the head,
and per fragment either one (no segmentation) or one per
maximum-transfer-length chunk (segmentation requested). -/
def mtk_cal_txd_req (soc : SocData) (skb : Skb) : Nat :=
  if skb.gso then
    1 + (skb.frags.map (fun f => DIV_ROUND_UP f soc.dma_max_len)).sum
  else
    1 + skb.frags.length

/-- MAX_SKB_FRAGS of the kernel, the wake threshold installed by
mtk_tx_alloc. -/
def MAX_SKB_FRAGS : Nat := 17

/-- mtk_tx_alloc, QDMA realisation, after the coherent allocations succeed:
every descriptor chained to its successor with txd3 = TX_DMA_LS0 |
TX_DMA_OWNER_CPU (empty, host-owned), zeroed buffer metadata, free-slot
counter ring_size - 2, producer at slot 0, consumer sentinel and
last_free_ptr at the last slot.  The ring depth is the configured
MTK_QDMA_RING_SIZE, taken as a parameter. -/
def mtk_tx_alloc (ringSize : Nat) : TxSt :=
  { ring :=
      { dma := fun i => { txd1 := 0, txd2 := (i + 1) % ringSize, plen := 0,
                          ls0 := true, ownerCpu := true, qid := 0 }
        buf := fun _ => emptyTxBuf
        dmaSize := ringSize
        nextFree := 0
        lastFree := ringSize - 1
        lastFreePtr := ringSize - 1
        freeCount := (ringSize : Int) - 2
        cpuIdx := 0
        thresh := MAX_SKB_FRAGS }
    mapCnt := 0
    mapped := 0 }

/-- Return value of ndo_start_xmit. -/
inductive NetdevTx where
  | ok
  | busy
deriving Repr, DecidableEq

/-- Driver-level state seen by the submission entry points: the transmit
ring state, the MTK_RESETTING bit of eth->state, whether the transmit
queues are stopped, and the net-device tx_dropped counter. -/
structure EthSt where
  tx : TxSt
  resetting : Bool
  queueStopped : Bool
  txDropped : Nat

/-- mtk_start_xmit: under the ring lock, fail fast while MTK_RESETTING is
set (the drop label: count a transmit drop, free the packet, report
NETDEV_TX_OK); compute the descriptor requirement and return
NETDEV_TX_BUSY with the queues stopped when the free-slot count is not
strictly greater; handle the GSO preconditions (skb_cow_head failure also
drops); delegate to mtk_tx_map, dropping on failure; stop the queues when
the remaining free slots fall to the threshold. -/
def mtk_start_xmit (soc : SocData) (env : DmaEnv) (macId : Nat) (e : EthSt)
    (skb : Skb) : NetdevTx × EthSt :=
  if e.resetting then
    (.ok, { e with txDropped := e.txDropped + 1 })
  else
    let tx_num := mtk_cal_txd_req soc skb
    if e.tx.ring.freeCount ≤ (tx_num : Int) then
      (.busy, { e with queueStopped := true })
    else if skb.gso && !env.cowOk then
      (.ok, { e with txDropped := e.txDropped + 1 })
    else
      let gso := skb.gso && skb.gsoTcp
      match mtk_tx_map soc env macId e.tx skb gso with
      | (.enomem, s1) =>
        (.ok, { e with tx := s1, txDropped := e.txDropped + 1 })
      | (.ok, s1) =>
        if s1.ring.freeCount ≤ (s1.ring.thresh : Int) then
          (.ok, { e with tx := s1, queueStopped := true })
        else
          (.ok, { e with tx := s1 })

/-- Ghost hardware action: the device completes the descriptor in slot i,
setting the TX_DMA_OWNER_CPU bit of its txd3. -/
def deviceComplete (s : TxSt) (i : Nat) : TxSt :=
  s.setDesc i { (s.ring.dma i) with ownerCpu := true }

/-! ### Transmit reclaim (mtk_poll_tx) -/

/-- struct mtk_poll_state: the queue-grouping accumulator of the reclaim
path.  txq identifies the current group by (MAC, queue). -/
structure PollSt where
  txq : Option (Nat × Nat)
  total : Nat
  done : Nat
  bytes : Nat
deriving Repr, DecidableEq

/-- mtk_poll_tx_done: account one completed packet, grouping consecutive
completions of the same upper-layer queue so one queue-accounting update
is issued per group.  devPresent models the eth->netdev[mac] null test;
the netdev_tx_completed_queue call itself is hardware/stack-facing and not
modelled. -/
def mtk_poll_tx_done (devPresent : Nat → Bool) (st : PollSt) (mac : Nat)
    (skb : Skb) : PollSt :=
  let st1 := { st with total := st.total + 1 }
  if !devPresent mac then st1
  else
    let txq := (mac, skb.queue)
    if st1.txq = some txq then
      { st1 with done := st1.done + 1, bytes := st1.bytes + skb.len }
    else
      { st1 with txq := some txq, done := 1, bytes := skb.len }

/-- The per-slot release shared by both reclaim loops: unmap and release
the buffer, point last_free at the slot and bump the free-slot counter. -/
def reclaimSlot (s : TxSt) (i : Nat) : TxSt :=
  let s1 := mtk_tx_unmap s i
  let ring2 := { s1.ring with lastFree := i,
                              freeCount := s1.ring.freeCount + 1 }
  { s1 with ring := ring2 }

/-- The while loop of mtk_poll_tx_qdma.  cpu is the release-side pointer
(an index, starting from last_free_ptr) and dma the DRX pointer read from
the hardware; the walk follows the txd2 chain, stops at a descriptor still
owned by the device or with no attached buffer, releases each completed
slot (bumping the free-slot counter and advancing last_free), and consumes
budget only for slots whose buffer is not the reusable-placeholder
sentinel.  The C loop terminates because the chain reaches dma; the fuel
argument bounds the iterations and is instantiated with the ring depth. -/
def pollTxQdmaGo (devPresent : Nat → Bool) (s : TxSt) (st : PollSt)
    (cpu dma : Nat) (budget : Nat) : Nat → TxSt × PollSt × Nat × Nat
  | 0 => (s, st, budget, cpu)
  | fuel + 1 =>
    if cpu = dma ∨ budget = 0 then (s, st, budget, cpu)
    else
      let next_cpu := (s.ring.dma cpu).txd2
      let desc := next_cpu
      if (s.ring.dma desc).ownerCpu = false then (s, st, budget, cpu)
      else
        let b := s.ring.buf desc
        match b.data with
        | .null => (s, st, budget, cpu)
        | .dummy =>
          pollTxQdmaGo devPresent (reclaimSlot s desc) st next_cpu dma
            budget fuel
        | .skbData skb =>
          let st1 := mtk_poll_tx_done devPresent st b.macId skb
          pollTxQdmaGo devPresent (reclaimSlot s desc) st1 next_cpu dma
            (budget - 1) fuel
        | .xdpData _ =>
          pollTxQdmaGo devPresent (reclaimSlot s desc) st next_cpu dma
            (budget - 1) fuel

/-- mtk_poll_tx_qdma: walk from last_free_ptr up to the DRX pointer read
from the hardware, then publish the new release pointer (the CRX register
write is hardware-facing).  Returns the remaining budget with the updated
states. -/
def mtk_poll_tx_qdma (devPresent : Nat → Bool) (s : TxSt) (dma : Nat)
    (budget : Nat) (st : PollSt) : TxSt × PollSt × Nat :=
  let r := pollTxQdmaGo devPresent s st s.ring.lastFreePtr dma budget
             s.ring.dmaSize
  let s1 := r.1
  let s2 := { s1 with ring := { s1.ring with lastFreePtr := r.2.2.2 } }
  (s2, r.2.1, r.2.2.1)

/-- The while loop of mtk_poll_tx_pdma: the same reclaim walk over
consecutive slot indices (cpu_idx up to the DTX index read from the
hardware). -/
def pollTxPdmaGo (devPresent : Nat → Bool) (s : TxSt) (st : PollSt)
    (cpu dma : Nat) (budget : Nat) : Nat → TxSt × PollSt × Nat × Nat
  | 0 => (s, st, budget, cpu)
  | fuel + 1 =>
    if cpu = dma ∨ budget = 0 then (s, st, budget, cpu)
    else
      let b := s.ring.buf cpu
      match b.data with
      | .null => (s, st, budget, cpu)
      | .dummy =>
        pollTxPdmaGo devPresent (reclaimSlot s cpu) st
          ((cpu + 1) % s.ring.dmaSize) dma budget fuel
      | .skbData skb =>
        let st1 := mtk_poll_tx_done devPresent st 0 skb
        pollTxPdmaGo devPresent (reclaimSlot s cpu) st1
          ((cpu + 1) % s.ring.dmaSize) dma (budget - 1) fuel
      | .xdpData _ =>
        pollTxPdmaGo devPresent (reclaimSlot s cpu) st
          ((cpu + 1) % s.ring.dmaSize) dma (budget - 1) fuel

/-- mtk_poll_tx_pdma: walk from cpu_idx up to the DTX index read from the
hardware and store the new cpu_idx. -/
def mtk_poll_tx_pdma (devPresent : Nat → Bool) (s : TxSt) (dma : Nat)
    (budget : Nat) (st : PollSt) : TxSt × PollSt × Nat :=
  let r := pollTxPdmaGo devPresent s st s.ring.cpuIdx dma budget
             s.ring.dmaSize
  let s1 := r.1
  let s2 := { s1 with ring := { s1.ring with cpuIdx := r.2.2.2 } }
  (s2, r.2.1, r.2.2.1)

/-- mtk_poll_tx, QDMA realisation: delegate to the ring reclaim, flush the
last queue-accounting group (stack-facing, not modelled), and wake the
stopped queues when the free-slot count has risen above the threshold.
Returns the completed-packet count state.total. -/
def mtk_poll_tx (devPresent : Nat → Bool) (s : TxSt) (dma : Nat)
    (budget : Nat) (queueStopped : Bool) : Nat × TxSt × Bool :=
  let r := mtk_poll_tx_qdma devPresent s dma budget {
    txq := none, total := 0, done := 0, bytes := 0 }
  let s1 := r.1
  let st := r.2.1
  let qs := if queueStopped && decide ((s1.ring.thresh : Int) < s1.ring.freeCount)
            then false else queueStopped
  (st.total, s1, qs)

/-! ### Fast-path (XDP) transmit submission -/

/-- Result of mtk_xdp_submit_frame: 0, -EBUSY, or -ENOMEM. -/
inductive XdpTxRes where
  | ok
  | ebusy
  | enomem
deriving Repr, DecidableEq

/-- The while (htxd != txd) unwind at the unmap label of
mtk_xdp_submit_frame: restore every slot written before the failing one
(which itself was never written).  Fuel bounds the chain walk as in
err_dma. -/
def xdpUnwindGo (s : TxSt) (htxd txd : Nat) : Nat → TxSt
  | 0 => s
  | fuel + 1 =>
    if htxd = txd then s
    else
      let s1 := err_dma_step s htxd
      xdpUnwindGo s1 ((s1.ring.dma htxd).txd2) txd fuel

/-- mtk_xdp_frame_map: establish the bus address of one frame segment —
a fresh dma_map_single for an explicit transmit (ndo_xdp_xmit), or the
pre-established page-pool address for a zero-copy local retransmit — then
encode the descriptor and record the metadata (placeholder sentinel,
SINGLE0 flag only in the freshly-mapped case).  Returns false on mapping
failure, before anything is written. -/
def mtk_xdp_frame_map (env : DmaEnv) (macId : Nat) (dma_map : Bool)
    (poolAddr : Nat) (s : TxSt) (info : TxDescInfo) (txd : Nat) :
    Bool × TxSt :=
  let mapRes : Option Nat × TxSt :=
    if dma_map then dmaMapTx env s info.size else (some poolAddr, s)
  match mapRes with
  | (none, s1) => (false, s1)
  | (some addr, s1) =>
    let info1 := { info with addr := addr }
    let s2 := s1.setDesc txd (mtk_tx_set_dma_desc_v1 info1 (s1.ring.dma txd))
    let b : TxBuf :=
      { flagsSingle0 := dma_map, flagsPage0 := false
        typ := if dma_map then .xdpNdo else .xdpTx
        data := .dummy, macId := macId, dmaAddr0 := addr,
        dmaLen0 := info.size }
    (true, s2.setBuf txd b)

/-- The for (;;) loop of mtk_xdp_submit_frame: map and encode the current
segment, finish when it was the last, otherwise advance along the chain
(failing at last_free), zero the next metadata record and continue with
the next fragment (the structural fuel argument, instantiated with one
more than the fragment count, bounds the iterations of the C for (;;)
loop).  On failure the unmap walk restores the written slots
and the call reports -ENOMEM.  On success the frame is attached to the
head metadata record, next_free advances and the free-slot counter drops
by the descriptor count (doorbell write not modelled). -/
def xdpSubmitGo (env : DmaEnv) (macId : Nat) (dma_map : Bool)
    (xdpf : XdpFrame) (htxd : Nat) :
    Nat → TxSt → TxDescInfo → Nat → Nat → Nat → List (Nat × Nat) →
    XdpTxRes × TxSt
  | 0, s, _, _, _, _, _ => (.enomem, s)
  | fuel + 1, s, info, addrArg, txd, nDesc, remaining =>
    match mtk_xdp_frame_map env macId dma_map addrArg s info txd with
    | (false, s1) => (.enomem, xdpUnwindGo s1 htxd txd s1.ring.dmaSize)
    | (true, s1) =>
      if info.last then
        let s2 := s1.setBuf htxd { (s1.ring.buf htxd) with
                    data := .xdpData xdpf }
        let ring2 := { s2.ring with nextFree := (s2.ring.dma txd).txd2,
                                    freeCount := s2.ring.freeCount - nDesc }
        (.ok, { s2 with ring := ring2 })
      else
        match remaining with
        | [] =>
          let s2 := s1.setBuf htxd { (s1.ring.buf htxd) with
                      data := .xdpData xdpf }
          let ring2 := { s2.ring with nextFree := (s2.ring.dma txd).txd2,
                                      freeCount := s2.ring.freeCount - nDesc }
          (.ok, { s2 with ring := ring2 })
        | (fsize, faddr) :: rest =>
          let txd1 := (s1.ring.dma txd).txd2
          if txd1 = s1.ring.lastFree then
            (.enomem, xdpUnwindGo s1 htxd txd1 s1.ring.dmaSize)
          else
            let s2 := s1.setBuf txd1 emptyTxBuf
            let info1 := { zeroTxDescInfo with size := fsize,
                                               last := rest.isEmpty,
                                               qid := macId }
            xdpSubmitGo env macId dma_map xdpf htxd fuel s2 info1 faddr
              txd1 (nDesc + 1) rest

/-- mtk_xdp_submit_frame, QDMA realisation: fail fast with -EBUSY while
MTK_RESETTING is set or when the free-slot count is not strictly greater
than 1 plus the fragment count; refuse with -ENOMEM when the producer has
reached last_free; otherwise run the segment loop.  Fragments are pairs of
(size, pool bus address). -/
def mtk_xdp_submit_frame (env : DmaEnv) (resetting : Bool) (macId : Nat)
    (s : TxSt) (xdpf : XdpFrame) (dma_map : Bool) : XdpTxRes × TxSt :=
  if resetting then (.ebusy, s)
  else if s.ring.freeCount ≤ (1 + xdpf.frags.length : Int) then (.ebusy, s)
  else
    let txd := s.ring.nextFree
    if txd = s.ring.lastFree then (.enomem, s)
    else
      let s1 := s.setBuf txd emptyTxBuf
      let info0 := { zeroTxDescInfo with size := xdpf.len, first := true,
                                         last := xdpf.frags.isEmpty,
                                         qid := macId }
      xdpSubmitGo env macId dma_map xdpf txd (xdpf.frags.length + 1) s1
        info0 xdpf.poolAddr txd 1 xdpf.frags

/-! ### Fast-path hook (mtk_xdp_run) -/

/-- The XDP verdict encoding of the kernel UAPI. -/
def XDP_ABORTED : Nat := 0
def XDP_DROP : Nat := 1
def XDP_PASS : Nat := 2
def XDP_TX : Nat := 3
def XDP_REDIRECT : Nat := 4

/-- The per-verdict counters of struct mtk_xdp_stats read by the receive
fast path. -/
structure XdpStats where
  rx_xdp_pass : Nat
  rx_xdp_drop : Nat
  rx_xdp_redirect : Nat
  rx_xdp_tx : Nat
  rx_xdp_tx_errors : Nat
deriving Repr, DecidableEq

/-- Total of the five receive-side verdict counters. -/
def statsSum (st : XdpStats) : Nat :=
  st.rx_xdp_pass + st.rx_xdp_drop + st.rx_xdp_redirect + st.rx_xdp_tx +
    st.rx_xdp_tx_errors

/-- An xdp_buff handed to the fast-path program: the buffer identity, the
packet length, the page-pool bus address of the payload and the headroom
(the fields consumed when the buffer is converted to a frame or returned
to the pool). -/
structure XdpBuff where
  dataBuf : Nat
  pktlen : Nat
  poolAddr : Nat
  headroom : Nat
deriving Repr, DecidableEq

/-- Environment of the receive fast path, indexed by the invocation
counter: the verdict returned by the attached program, whether
xdp_do_redirect succeeds, and whether xdp_convert_buff_to_frame
succeeds. -/
structure XdpEnv where
  act : Nat → Nat
  redirectOk : Nat → Bool
  convertOk : Nat → Bool

/-- mtk_xdp_run: with no program attached the buffer passes through; with
a program, run it and dispatch on the verdict.  PASS, successful REDIRECT
and successful TX bump their dedicated counters and keep the buffer out of
the pool; a failed redirect falls to the drop path with the drop counter
(the initial value of the count pointer); a failed conversion or local
submit falls to the drop path with the transmit-error counter; the
default case (an unknown verdict) and ABORTED fall through to DROP.
Every drop-path exit returns the buffer to the pool (the poolPut ghost
counter).  Returns the effective verdict together with the transmit
state, counters and pool ghost. -/
def mtk_xdp_run (progAttached : Bool) (env : DmaEnv) (xenv : XdpEnv)
    (i : Nat) (resetting : Bool) (macId : Nat) (s : TxSt)
    (stats : XdpStats) (poolPut : Nat) (xdp : XdpBuff) :
    Nat × TxSt × XdpStats × Nat :=
  if !progAttached then (XDP_PASS, s, stats, poolPut)
  else
    let act := xenv.act i
    if act = XDP_PASS then
      (act, s, { stats with rx_xdp_pass := stats.rx_xdp_pass + 1 }, poolPut)
    else if act = XDP_REDIRECT then
      if xenv.redirectOk i then
        (act, s, { stats with rx_xdp_redirect := stats.rx_xdp_redirect + 1 },
         poolPut)
      else
        (XDP_DROP, s, { stats with rx_xdp_drop := stats.rx_xdp_drop + 1 },
         poolPut + 1)
    else if act = XDP_TX then
      if xenv.convertOk i then
        let xdpf : XdpFrame := { len := xdp.pktlen, frags := [],
                                 headroom := xdp.headroom,
                                 poolAddr := xdp.poolAddr }
        match mtk_xdp_submit_frame env resetting macId s xdpf false with
        | (.ok, s1) =>
          (act, s1, { stats with rx_xdp_tx := stats.rx_xdp_tx + 1 }, poolPut)
        | (_, s1) =>
          (XDP_DROP, s1,
           { stats with rx_xdp_tx_errors := stats.rx_xdp_tx_errors + 1 },
           poolPut + 1)
      else
        (XDP_DROP, s,
         { stats with rx_xdp_tx_errors := stats.rx_xdp_tx_errors + 1 },
         poolPut + 1)
    else
      (act, s, { stats with rx_xdp_drop := stats.rx_xdp_drop + 1 },
       poolPut + 1)

/-- A window of consecutive fast-path invocations: fold mtk_xdp_run over a
list of buffers, advancing the invocation counter each time (as the
receive poll loop does). -/
def runXdpWindow (progAttached : Bool) (env : DmaEnv) (xenv : XdpEnv)
    (resetting : Bool) (macId : Nat) (s : TxSt) (stats : XdpStats)
    (poolPut : Nat) (i : Nat) : List XdpBuff → TxSt × XdpStats × Nat
  | [] => (s, stats, poolPut)
  | b :: rest =>
    let r := mtk_xdp_run progAttached env xenv i resetting macId s stats
               poolPut b
    runXdpWindow progAttached env xenv resetting macId r.2.1 r.2.2.1
      r.2.2.2 (i + 1) rest

/-! ### Receive ring and mtk_poll_rx -/

/-- MTK_MAX_DEVS and the generation-2 PSE port / MAC identity constants
(values from the per-MAC port constants the specification describes for
generation ≥ 2; the numeric header is not part of the sources). -/
def MTK_MAX_DEVS : Nat := 3
def PSE_GDM1_PORT : Nat := 1
def PSE_GDM2_PORT : Nat := 2
def PSE_GDM3_PORT : Nat := 15
def MTK_GMAC3_ID : Nat := 2

/-- A receive descriptor: rxd1 buffer address; the RX_DMA_DONE and PLEN0
fields of rxd2; the source-port field and RX_DMA_SPECIAL_TAG bit of
rxd4/rxd5; the checksum-valid bit.  Hash and reason fields are omitted —
no claim observes them. -/
structure RxDesc where
  addr : Nat
  done : Bool
  plen : Nat
  sport : Nat
  specialTag : Bool
  l4valid : Bool
deriving Repr, DecidableEq

/-- The receive ring (struct mtk_rx_ring): descriptors, the parallel
buffer-pointer array (buffers carried as identities), depth, the CPU
doorbell shadow calc_idx, the descriptor buffer size, the frag size, and
whether this ring draws from the page pool. -/
structure RxRing where
  dmaR : Nat → RxDesc
  dataR : Nat → Nat
  dmaSizeR : Nat
  calcIdx : Nat
  bufSize : Nat
  fragSize : Nat
  pagePool : Bool

/-- Receive-path configuration: netsys generation ≥ 3 (source-port
decoding), which netdevs exist, and whether a fast-path program is
attached. -/
structure RxCfg where
  v3 : Bool
  devPresent : Nat → Bool
  progAttached : Bool

/-- Receive-path environment streams, indexed by the poll-iteration ghost
counter: page-pool replacement allocation (buffer, bus address), legacy
fragment allocation, legacy receive bus-mapping, and build_skb success. -/
structure RxEnv where
  alloc : Nat → Option (Nat × Nat)
  fragAlloc : Nat → Option Nat
  rxMap : Nat → Option Nat
  buildSkb : Nat → Bool

/-- The full receive-side state threaded through mtk_poll_rx: the receive
ring, the transmit state (for local-retransmit verdicts), the fast-path
counters and pool ghost, the iteration ghost counter, the receive-drop
counter, the packets handed to the stack (buffer, length), the deferred
redirect-flush flag, and the MTK_RESETTING bit. -/
structure RxSt where
  ring : RxRing
  tx : TxSt
  stats : XdpStats
  poolPut : Nat
  itCnt : Nat
  rxDropped : Nat
  delivered : List (Nat × Nat)
  xdpFlush : Bool
  resetting : Bool

/-- The joint skip_rx / release_desc tail of a receive-poll iteration:
when a replacement (buffer, bus address) is at hand (skip_rx), install it
in the slot and its descriptor; in every case rewrite rxd2 to the empty
host-owned value — buffer-size length, done bit clear — leaving rxd1
untouched in the drop-in-place case, and advance calc_idx to the consumed
slot. -/
def releaseDesc (st : RxSt) (idx : Nat) (repl : Option (Nat × Nat)) :
    RxSt :=
  let ring := st.ring
  let ring1 :=
    match repl with
    | some (nb, nd) =>
      { ring with dataR := upd ring.dataR idx nb,
                  dmaR := upd ring.dmaR idx
                            { (ring.dmaR idx) with addr := nd } }
    | none => ring
  let d := ring1.dmaR idx
  let d1 := { d with done := false, plen := ring.bufSize }
  { st with ring := { ring1 with dmaR := upd ring1.dmaR idx d1,
                                 calcIdx := idx } }

/-- The source-MAC decoding of mtk_poll_rx: on generation 3 the v2 source
port selects among the three MACs; earlier generations subtract one from
the source port unless per-packet special-tag suppression applies. -/
def rxMacOf (cfg : RxCfg) (trxd : RxDesc) : Int :=
  if cfg.v3 then
    (if trxd.sport = PSE_GDM1_PORT ∨ trxd.sport = PSE_GDM2_PORT then
       (trxd.sport : Int) - 1
     else if trxd.sport = PSE_GDM3_PORT then (MTK_GMAC3_ID : Int)
     else 0)
  else
    (if !trxd.specialTag then (trxd.sport : Int) - 1 else 0)

/-- One iteration of the mtk_poll_rx loop (hardware LRO off, so the single
receive ring is always selected; MT7628 and 36-bit addressing are not
configured).  Returns none when the next descriptor is not done (the
loop breaks), otherwise the updated state: source-MAC decoding, the
resetting fail-fast, replacement-buffer allocation before any consumption,
the fast-path hook, packet construction and delivery, and the slot
release.  The page-pool bus address of the old buffer is identified with
the buffer identity. -/
def mtk_poll_rx_step (cfg : RxCfg) (env : DmaEnv) (xenv : XdpEnv)
    (renv : RxEnv) (st : RxSt) : Option RxSt :=
  let ring := st.ring
  let idx := (ring.calcIdx + 1) % ring.dmaSizeR
  let rxd := ring.dmaR idx
  let data := ring.dataR idx
  if !rxd.done then none
  else
    let trxd := rxd
    let mac : Int := rxMacOf cfg trxd
    if mac < 0 ∨ (MTK_MAX_DEVS : Int) ≤ mac ∨ !cfg.devPresent mac.toNat then
      some (releaseDesc st idx none)
    else if st.resetting then
      some (releaseDesc st idx none)
    else
      let pktlen := trxd.plen
      if ring.pagePool then
        match renv.alloc st.itCnt with
        | none =>
          some (releaseDesc { st with rxDropped := st.rxDropped + 1 } idx
                  none)
        | some (newBuf, newDma) =>
          let xdp : XdpBuff := { dataBuf := data, pktlen := pktlen,
                                 poolAddr := data, headroom := 0 }
          let r := mtk_xdp_run cfg.progAttached env xenv st.itCnt
                     st.resetting mac.toNat st.tx st.stats st.poolPut xdp
          let ret := r.1
          let st1 := { st with tx := r.2.1, stats := r.2.2.1,
                               poolPut := r.2.2.2 }
          let st2 := if ret = XDP_REDIRECT then { st1 with xdpFlush := true }
                     else st1
          if ret ≠ XDP_PASS then
            some (releaseDesc st2 idx (some (newBuf, newDma)))
          else if !renv.buildSkb st.itCnt then
            let st3 := { st2 with poolPut := st2.poolPut + 1,
                                  rxDropped := st2.rxDropped + 1 }
            some (releaseDesc st3 idx (some (newBuf, newDma)))
          else
            let st3 := { st2 with
                         delivered := st2.delivered ++ [(data, pktlen)] }
            some (releaseDesc st3 idx (some (newBuf, newDma)))
      else
        match renv.fragAlloc st.itCnt with
        | none =>
          some (releaseDesc { st with rxDropped := st.rxDropped + 1 } idx
                  none)
        | some newBuf =>
          match renv.rxMap st.itCnt with
          | none =>
            some (releaseDesc { st with rxDropped := st.rxDropped + 1 } idx
                    none)
          | some newDma =>
            if !renv.buildSkb st.itCnt then
              some (releaseDesc { st with rxDropped := st.rxDropped + 1 }
                      idx (some (newBuf, newDma)))
            else
              let st3 := { st with
                           delivered := st.delivered ++ [(data, pktlen)] }
              some (releaseDesc st3 idx (some (newBuf, newDma)))

/-- The while (done < budget) loop of mtk_poll_rx; every completed
iteration advances the ghost iteration counter.  The structural fuel
argument is instantiated with the budget, an iteration bound since every
iteration that continues increments done. -/
def pollRxGo (cfg : RxCfg) (env : DmaEnv) (xenv : XdpEnv) (renv : RxEnv)
    (budget : Nat) : Nat → RxSt → Nat → Nat × RxSt
  | 0, st, done => (done, st)
  | fuel + 1, st, done =>
    if budget ≤ done then (done, st)
    else
      match mtk_poll_rx_step cfg env xenv renv st with
      | none => (done, st)
      | some st1 =>
        pollRxGo cfg env xenv renv budget fuel
          { st1 with itCnt := st1.itCnt + 1 } (done + 1)

/-- mtk_poll_rx: drain up to budget completed receive descriptors.  The
trailing doorbell update, coalescing sample and deferred xdp_do_flush are
hardware-facing or external and are not modelled beyond the xdpFlush
flag. -/
def mtk_poll_rx (cfg : RxCfg) (env : DmaEnv) (xenv : XdpEnv) (renv : RxEnv)
    (budget : Nat) (st : RxSt) : Nat × RxSt :=
  pollRxGo cfg env xenv renv budget budget st 0

/-! ### Poll scheduler (mtk_napi_tx, mtk_napi_rx) -/

/-- Hardware-register and scheduler environment of one napi invocation:
the QDMA DRX pointer sampled by the transmit reclaim, the transmit
completion-status re-read, the receive completion-status re-reads (indexed
per read), and whether napi_complete_done accepts the completion. -/
structure NapiEnv where
  drx : Nat
  txPending : Bool
  rxPending : Nat → Bool
  completeOk : Bool

/-- mtk_napi_tx: reclaim within budget, then return the full budget when
the budget was consumed or the transmit completion-status register still
shows pending work; otherwise complete and re-enable the transmit
interrupt (the returned flag).  Result: (returned count, transmit state,
queue-stopped flag, interrupt re-enabled). -/
def mtk_napi_tx (devPresent : Nat → Bool) (nenv : NapiEnv) (s : TxSt)
    (queueStopped : Bool) (budget : Nat) : Nat × TxSt × Bool × Bool :=
  let r := mtk_poll_tx devPresent s nenv.drx budget queueStopped
  let tx_done := r.1
  if tx_done = budget then (budget, r.2.1, r.2.2, false)
  else if nenv.txPending then (budget, r.2.1, r.2.2, false)
  else if nenv.completeOk then (tx_done, r.2.1, r.2.2, true)
  else (tx_done, r.2.1, r.2.2, false)

/-- The do-while loop of mtk_napi_rx: drain, return the full budget as
soon as it is consumed, re-drain while the receive completion-status
register still shows pending work, and otherwise complete and re-enable
the receive interrupt.  readIdx indexes the status re-reads; fuel bounds
the re-drain passes (the hardware eventually stops raising status), with
none for exhaustion.  Result: (returned count, state, interrupt
re-enabled, next read index). -/
def napiRxGo (cfg : RxCfg) (env : DmaEnv) (xenv : XdpEnv) (renv : RxEnv)
    (nenv : NapiEnv) (budget : Nat) (st : RxSt) (total readIdx : Nat) :
    Nat → Option (Nat × RxSt × Bool × Nat)
  | 0 => none
  | fuel + 1 =>
    let r := mtk_poll_rx cfg env xenv renv (budget - total) st
    let total1 := total + r.1
    let st1 := r.2
    if total1 = budget then some (budget, st1, false, readIdx)
    else if nenv.rxPending readIdx then
      napiRxGo cfg env xenv renv nenv budget st1 total1 (readIdx + 1) fuel
    else if nenv.completeOk then some (total1, st1, true, readIdx + 1)
    else some (total1, st1, false, readIdx + 1)

/-- mtk_napi_rx (see napiRxGo). -/
def mtk_napi_rx (cfg : RxCfg) (env : DmaEnv) (xenv : XdpEnv) (renv : RxEnv)
    (nenv : NapiEnv) (budget : Nat) (st : RxSt) (fuel : Nat) :
    Option (Nat × RxSt × Bool × Nat) :=
  napiRxGo cfg env xenv renv nenv budget st 0 0 fuel

/-! ### Specification predicates for the transmit unwind -/

/-- A descriptor in the empty host-owned state written by mtk_tx_alloc and
by the err_dma unwind: txd3 = TX_DMA_LS0 | TX_DMA_OWNER_CPU. -/
def hostFreeDesc (d : TxDesc) : Prop :=
  d.plen = 0 ∧ d.ls0 = true ∧ d.ownerCpu = true

/-- Buffer metadata holding no mapping and no object (the state mtk_tx_unmap
leaves behind). -/
def cleanTxBuf (b : TxBuf) : Prop :=
  b.flagsSingle0 = false ∧ b.flagsPage0 = false ∧ b.data = .null

/-- Well-formed transmit ring: positive depth, producer and consumer
sentinels in range, and the txd2 chain closing through consecutive slots —
the shape established by mtk_tx_alloc and preserved by every operation
(no descriptor write touches txd2). -/
def WFRing (s : TxSt) : Prop :=
  0 < s.ring.dmaSize ∧ s.ring.nextFree < s.ring.dmaSize ∧
  s.ring.lastFree < s.ring.dmaSize ∧
  ∀ i, i < s.ring.dmaSize → (s.ring.dma i).txd2 = (i + 1) % s.ring.dmaSize

/-- The post-state of a fully unwound submission: producer pointer,
consumer sentinel, free-slot counter and the live-mapping multiset are
exactly as before the submission, and every slot that differs at all has
been put into the empty host-owned state with no mapping and no attached
object. -/
def Restored (s0 s1 : TxSt) : Prop :=
  s1.ring.nextFree = s0.ring.nextFree ∧
  s1.ring.lastFree = s0.ring.lastFree ∧
  s1.ring.freeCount = s0.ring.freeCount ∧
  s1.mapped = s0.mapped ∧
  (∀ i, s1.ring.dma i ≠ s0.ring.dma i → hostFreeDesc (s1.ring.dma i)) ∧
  (∀ i, s1.ring.buf i ≠ s0.ring.buf i → cleanTxBuf (s1.ring.buf i))

/-- The unmap pair recorded in the metadata of slot i. -/
def pairOf (s : TxSt) (i : Nat) : Nat × Nat :=
  ((s.ring.buf i).dmaAddr0, (s.ring.buf i).dmaLen0)

/-- The multiset of unmap pairs recorded in the n slots starting at head
(ring order, modulo N). -/
def touchedPairs (s : TxSt) (head n N : Nat) : Multiset (Nat × Nat) :=
  ((List.range n).map (fun k => pairOf s ((head + k) % N)) :
    List (Nat × Nat))

/-- Invariant of the descriptor-writing phase of mtk_tx_map, after the
first n slots of the chain from head have been written: ring scalars are
untouched, every slot off the chain is untouched, the chain pointers of
written slots still link consecutively, every written slot records a live
unmap pair behind its flag bits, no written slot beyond the head is the
consumer sentinel, and the live-mapping multiset is exactly the original
plus the recorded pairs. -/
def MapInv (s0 : TxSt) (head n : Nat) (s : TxSt) : Prop :=
  s.ring.dmaSize = s0.ring.dmaSize ∧
  s.ring.nextFree = s0.ring.nextFree ∧
  s.ring.lastFree = s0.ring.lastFree ∧
  s.ring.freeCount = s0.ring.freeCount ∧
  1 ≤ n ∧ n ≤ s0.ring.dmaSize ∧
  (∀ i, (∀ k, k < n → i ≠ (head + k) % s0.ring.dmaSize) →
     s.ring.dma i = s0.ring.dma i ∧ s.ring.buf i = s0.ring.buf i) ∧
  (∀ k, k < n → (s.ring.dma ((head + k) % s0.ring.dmaSize)).txd2 =
     ((head + k) % s0.ring.dmaSize + 1) % s0.ring.dmaSize) ∧
  (∀ k, k < n →
     (s.ring.buf ((head + k) % s0.ring.dmaSize)).flagsSingle0 = true ∨
     (s.ring.buf ((head + k) % s0.ring.dmaSize)).flagsPage0 = true) ∧
  (∀ k, 1 ≤ k → k < n →
     (head + k) % s0.ring.dmaSize ≠ s0.ring.lastFree) ∧
  s.mapped = touchedPairs s head n s0.ring.dmaSize + s0.mapped

/-- Invariant of the err_dma unwind with n slots still to restore from
head on: as MapInv but slots off the remaining chain may already be
restored. -/
def UInv (s0 : TxSt) (head n : Nat) (s : TxSt) : Prop :=
  s.ring.nextFree = s0.ring.nextFree ∧
  s.ring.lastFree = s0.ring.lastFree ∧
  s.ring.freeCount = s0.ring.freeCount ∧
  (∀ i, (∀ k, k < n → i ≠ (head + k) % s0.ring.dmaSize) →
     (s.ring.dma i = s0.ring.dma i ∨ hostFreeDesc (s.ring.dma i)) ∧
     (s.ring.buf i = s0.ring.buf i ∨ cleanTxBuf (s.ring.buf i))) ∧
  (∀ k, k < n → (s.ring.dma ((head + k) % s0.ring.dmaSize)).txd2 =
     ((head + k) % s0.ring.dmaSize + 1) % s0.ring.dmaSize) ∧
  (∀ k, k < n →
     (s.ring.buf ((head + k) % s0.ring.dmaSize)).flagsSingle0 = true ∨
     (s.ring.buf ((head + k) % s0.ring.dmaSize)).flagsPage0 = true) ∧
  s.mapped = touchedPairs s head n s0.ring.dmaSize + s0.mapped

/-- Postcondition of the descriptor-writing loops of mtk_tx_map relative
to the pre-submission state: on failure, some window of m slots written
from the producer slot on satisfies the writing invariant and the failing
descriptor is the slot one past the window; on continuation, the
invariant holds with the current descriptor the last written slot. -/
def ChunkPost (s0 : TxSt) (r : TxLoop) : Prop :=
  match r with
  | .fail sf txdf => ∃ m, MapInv s0 s0.ring.nextFree m sf ∧
      txdf = (s0.ring.nextFree + m) % s0.ring.dmaSize
  | .next s1 txd1 _ => ∃ m, MapInv s0 s0.ring.nextFree m s1 ∧
      txd1 = (s0.ring.nextFree + (m - 1)) % s0.ring.dmaSize

/-! ### Concrete hang-detector observations (used by the C2 theorems) -/

/-- An observation where only the queue-DMA signature holds (the sampled
WDMA index is 1 and the WDMA busy bits are clear). -/
def hangObsQ : HangObs :=
  { wdidx := 1, wtx_busy := false, cdm_full := false, oq_free := false,
    qfsm_hang := true, qfwd_hang := true, gdm1_tx := true,
    gdm2_tx := false, gmac1_tx := true, gmac2_tx := false, gdm1_fc := 0,
    gdm2_fc := 9, oq_hang := false, cdm1_busy := false, adma_busy := false }

/-- An observation where only the reassembly-DMA signature holds. -/
def hangObsA : HangObs :=
  { wdidx := 1, wtx_busy := false, cdm_full := false, oq_free := false,
    qfsm_hang := false, qfwd_hang := false, gdm1_tx := false,
    gdm2_tx := false, gmac1_tx := false, gmac2_tx := false, gdm1_fc := 9,
    gdm2_fc := 9, oq_hang := true, cdm1_busy := true, adma_busy := true }

/-- An observation where only the bridging-DMA signature holds, sampled
WDMA index 0. -/
def hangObsW0 : HangObs :=
  { wdidx := 0, wtx_busy := true, cdm_full := true, oq_free := true,
    qfsm_hang := false, qfwd_hang := false, gdm1_tx := false,
    gdm2_tx := false, gmac1_tx := false, gmac2_tx := false, gdm1_fc := 9,
    gdm2_fc := 9, oq_hang := false, cdm1_busy := false, adma_busy := false }

/-- As hangObsW0, sampled WDMA index 1. -/
def hangObsW1 : HangObs :=
  { hangObsW0 with wdidx := 1 }

/-- An observation where no signature holds. -/
def hangObsNone : HangObs :=
  { wdidx := 77, wtx_busy := false, cdm_full := false, oq_free := false,
    qfsm_hang := false, qfwd_hang := false, gdm1_tx := false,
    gdm2_tx := false, gmac1_tx := false, gmac2_tx := false, gdm1_fc := 9,
    gdm2_fc := 9, oq_hang := false, cdm1_busy := false, adma_busy := false }

/-! ### Concrete instances used by witnesses and scenarios -/

/-- A SoC configuration with maximum per-descriptor transfer length 8. -/
def socW : SocData := ⟨8, by norm_num⟩

/-- A SoC configuration with maximum per-descriptor transfer length 4. -/
def socC7 : SocData := ⟨4, by norm_num⟩

/-- An environment where every mapping attempt succeeds (with distinct
addresses) and skb_cow_head succeeds. -/
def envAllMaps : DmaEnv := ⟨fun n => some (1000 + n), true⟩

/-- An environment whose second and later mapping attempts fail. -/
def envSecondMapFails : DmaEnv :=
  ⟨fun n => if n = 0 then some 1000 else none, true⟩

/-- A 64-byte linear packet. -/
def skb64 : Skb :=
  { headlen := 64, frags := [], gso := false, gsoTcp := false,
    csum := false, vlan := false, vlan_tci := 0, queue := 0 }

/-- A non-GSO packet with three scatter-gather fragments. -/
def skbC3 : Skb :=
  { headlen := 64, frags := [10, 20, 30], gso := false, gsoTcp := false,
    csum := false, vlan := false, vlan_tci := 0, queue := 0 }

/-- A GSO packet whose single fragment is 1.5 times the maximum
per-descriptor transfer length of socC7. -/
def skbC7 : Skb :=
  { headlen := 32, frags := [6], gso := true, gsoTcp := true,
    csum := false, vlan := false, vlan_tci := 0, queue := 0 }

/-- A two-fragment packet (used to drive the unwind). -/
def skbC1 : Skb :=
  { headlen := 16, frags := [5, 3], gso := false, gsoTcp := false,
    csum := false, vlan := false, vlan_tci := 0, queue := 0 }

/-- Driver state over a fresh depth-4 ring, not resetting. -/
def ethC3 : EthSt :=
  { tx := mtk_tx_alloc 4, resetting := false, queueStopped := false,
    txDropped := 0 }

/-- Driver state over a fresh depth-8 ring with the resetting flag set. -/
def ethReset : EthSt :=
  { tx := mtk_tx_alloc 8, resetting := true, queueStopped := false,
    txDropped := 0 }

/-- A fragment-free fast-path frame. -/
def frameW : XdpFrame :=
  { len := 64, frags := [], headroom := 0, poolAddr := 7 }

/-- An XDP environment returning the out-of-range verdict 9. -/
def xenvInvalid : XdpEnv := ⟨fun _ => 9, fun _ => true, fun _ => true⟩

/-- The all-zero verdict counters. -/
def zeroStats : XdpStats := ⟨0, 0, 0, 0, 0⟩

/-- A concrete receive buffer handed to the fast path. -/
def xdpBuffW : XdpBuff :=
  { dataBuf := 3, pktlen := 64, poolAddr := 3, headroom := 0 }

/-- A receive descriptor that is not done (empty slot). -/
def rxDescEmpty : RxDesc :=
  { addr := 0, done := false, plen := 0, sport := 1, specialTag := false,
    l4valid := false }

/-- A fresh receive ring of depth 8 with no completed descriptors. -/
def rxRingEmpty : RxRing :=
  { dmaR := fun _ => rxDescEmpty, dataR := fun i => 100 + i, dmaSizeR := 8,
    calcIdx := 7, bufSize := 2048, fragSize := 2048, pagePool := true }

/-- Receive-side state over rxRingEmpty. -/
def rxStEmpty : RxSt :=
  { ring := rxRingEmpty, tx := mtk_tx_alloc 8, stats := zeroStats,
    poolPut := 0, itCnt := 0, rxDropped := 0, delivered := [],
    xdpFlush := false, resetting := false }

/-- Receive configuration: generation 2, all netdevs present, program
attached. -/
def rxCfgW : RxCfg :=
  { v3 := false, devPresent := fun _ => true, progAttached := true }

/-- Receive environment where every service succeeds. -/
def renvW : RxEnv :=
  { alloc := fun n => some (200 + n, 300 + n),
    fragAlloc := fun n => some (400 + n), rxMap := fun n => some (500 + n),
    buildSkb := fun _ => true }

/-- Napi environment: DRX at the fresh release pointer, no pending status,
completion accepted. -/
def nenvW : NapiEnv :=
  { drx := 7, txPending := false, rxPending := fun _ => false,
    completeOk := true }

/-- Walking the txd2 chain: from slot c, the listed slots follow in
order. -/
def chainFrom (dma : Nat → TxDesc) : Nat → List Nat → Prop
  | _, [] => True
  | c, i :: rest => (dma c).txd2 = i ∧ chainFrom dma i rest

/-- Whether reclaiming slot i consumes budget: its buffer metadata holds a
real object (a packet or a fast-path frame), not the reusable-placeholder
sentinel. -/
def consumesBudget (s : TxSt) (i : Nat) : Bool :=
  !((s.ring.buf i).data == TxBufData.dummy)

/-- Walking consecutive ring indices modulo the depth (the legacy reclaim
loop): from slot c, the listed slots follow in order. -/
def stepChain (N : Nat) : Nat → List Nat → Prop
  | _, [] => True
  | c, i :: rest => i = c ∧ stepChain N ((c + 1) % N) rest

/-- A depth-8 ring with a completed three-slot span: a packet head slot, a
scatter-gather continuation slot holding the placeholder sentinel, and
another packet head slot. -/
def txStC10 : TxSt :=
  let s := mtk_tx_alloc 8
  let bufs : Nat → TxBuf := fun i =>
    if i = 0 then { emptyTxBuf with data := .skbData skb64,
                                    flagsSingle0 := true, dmaAddr0 := 11,
                                    dmaLen0 := 64 }
    else if i = 1 then { emptyTxBuf with data := .dummy,
                                         flagsPage0 := true, dmaAddr0 := 12,
                                         dmaLen0 := 8 }
    else if i = 2 then { emptyTxBuf with data := .skbData skb64,
                                         flagsSingle0 := true,
                                         dmaAddr0 := 13, dmaLen0 := 64 }
    else emptyTxBuf
  { s with ring := { s.ring with buf := bufs } }

/-- An XDP environment returning the PASS verdict. -/
def xenvPass : XdpEnv := ⟨fun _ => 2, fun _ => true, fun _ => true⟩

/-- A receive environment where every allocation and mapping fails. -/
def renvFail : RxEnv :=
  { alloc := fun _ => none, fragAlloc := fun _ => none,
    rxMap := fun _ => none, buildSkb := fun _ => true }

/-- A receive state whose next slot (index 0) holds a completed descriptor
from source port 1. -/
def rxStDone : RxSt :=
  { ring := { rxRingEmpty with dmaR := fun i =>
                if i = 0 then { addr := 42, done := true, plen := 60,
                                sport := 1, specialTag := false,
                                l4valid := true }
                else rxDescEmpty }
    tx := mtk_tx_alloc 8, stats := zeroStats, poolPut := 0, itCnt := 0,
    rxDropped := 0, delivered := [], xdpFlush := false, resetting := false }

/-! ## Theorems -/

/-! Projection lemmas for the state operations. -/

@[simp] theorem upd_self {α : Type} (f : Nat → α) (i : Nat) (v : α) :
    upd f i v i = v := by simp [upd]

@[simp] theorem upd_ne {α : Type} (f : Nat → α) (i : Nat) (v : α) (j : Nat)
    (h : j ≠ i) : upd f i v j = f j := by simp [upd, h]

@[simp] theorem setDesc_buf (s : TxSt) (i : Nat) (d : TxDesc) :
    (s.setDesc i d).ring.buf = s.ring.buf := rfl

@[simp] theorem setDesc_dma (s : TxSt) (i : Nat) (d : TxDesc) :
    (s.setDesc i d).ring.dma = upd s.ring.dma i d := rfl

@[simp] theorem setDesc_nextFree (s : TxSt) (i : Nat) (d : TxDesc) :
    (s.setDesc i d).ring.nextFree = s.ring.nextFree := rfl

@[simp] theorem setDesc_lastFree (s : TxSt) (i : Nat) (d : TxDesc) :
    (s.setDesc i d).ring.lastFree = s.ring.lastFree := rfl

@[simp] theorem setDesc_freeCount (s : TxSt) (i : Nat) (d : TxDesc) :
    (s.setDesc i d).ring.freeCount = s.ring.freeCount := rfl

@[simp] theorem setDesc_dmaSize (s : TxSt) (i : Nat) (d : TxDesc) :
    (s.setDesc i d).ring.dmaSize = s.ring.dmaSize := rfl

@[simp] theorem setDesc_mapped (s : TxSt) (i : Nat) (d : TxDesc) :
    (s.setDesc i d).mapped = s.mapped := rfl

@[simp] theorem setBuf_dma (s : TxSt) (i : Nat) (b : TxBuf) :
    (s.setBuf i b).ring.dma = s.ring.dma := rfl

@[simp] theorem setBuf_buf (s : TxSt) (i : Nat) (b : TxBuf) :
    (s.setBuf i b).ring.buf = upd s.ring.buf i b := rfl

@[simp] theorem setBuf_nextFree (s : TxSt) (i : Nat) (b : TxBuf) :
    (s.setBuf i b).ring.nextFree = s.ring.nextFree := rfl

@[simp] theorem setBuf_lastFree (s : TxSt) (i : Nat) (b : TxBuf) :
    (s.setBuf i b).ring.lastFree = s.ring.lastFree := rfl

@[simp] theorem setBuf_freeCount (s : TxSt) (i : Nat) (b : TxBuf) :
    (s.setBuf i b).ring.freeCount = s.ring.freeCount := rfl

@[simp] theorem setBuf_dmaSize (s : TxSt) (i : Nat) (b : TxBuf) :
    (s.setBuf i b).ring.dmaSize = s.ring.dmaSize := rfl

@[simp] theorem setBuf_mapped (s : TxSt) (i : Nat) (b : TxBuf) :
    (s.setBuf i b).mapped = s.mapped := rfl

@[simp] theorem unmap_dma (s : TxSt) (i : Nat) :
    (mtk_tx_unmap s i).ring.dma = s.ring.dma := by
  simp only [mtk_tx_unmap]
  split_ifs <;> rfl

@[simp] theorem unmap_nextFree (s : TxSt) (i : Nat) :
    (mtk_tx_unmap s i).ring.nextFree = s.ring.nextFree := by
  simp only [mtk_tx_unmap]
  split_ifs <;> rfl

@[simp] theorem unmap_lastFree (s : TxSt) (i : Nat) :
    (mtk_tx_unmap s i).ring.lastFree = s.ring.lastFree := by
  simp only [mtk_tx_unmap]
  split_ifs <;> rfl

@[simp] theorem unmap_freeCount (s : TxSt) (i : Nat) :
    (mtk_tx_unmap s i).ring.freeCount = s.ring.freeCount := by
  simp only [mtk_tx_unmap]
  split_ifs <;> rfl

@[simp] theorem unmap_dmaSize (s : TxSt) (i : Nat) :
    (mtk_tx_unmap s i).ring.dmaSize = s.ring.dmaSize := by
  simp only [mtk_tx_unmap]
  split_ifs <;> rfl

@[simp] theorem unmap_buf_self (s : TxSt) (i : Nat) :
    (mtk_tx_unmap s i).ring.buf i =
      { s.ring.buf i with flagsSingle0 := false, flagsPage0 := false,
                          data := .null } := by
  simp only [mtk_tx_unmap]
  split_ifs <;> simp [TxSt.setBuf]

theorem unmap_buf_ne (s : TxSt) (i j : Nat) (h : j ≠ i) :
    (mtk_tx_unmap s i).ring.buf j = s.ring.buf j := by
  simp only [mtk_tx_unmap]
  split_ifs <;> simp [TxSt.setBuf, h]

/-- The flagged unmap pair of slot i is erased from the live-mapping
multiset by mtk_tx_unmap. -/
theorem unmap_mapped (s : TxSt) (i : Nat) :
    (mtk_tx_unmap s i).mapped =
      (if (s.ring.buf i).flagsSingle0 ∨ (s.ring.buf i).flagsPage0 then
        s.mapped.erase (pairOf s i)
       else s.mapped) := by
  simp only [mtk_tx_unmap, pairOf]
  split_ifs <;> first
    | rfl
    | (exfalso; tauto)

/-- The value of cpu after a nonempty reclaim walk is the last listed
slot. -/
theorem foldl_last_mem (L : List Nat) : ∀ c, L ≠ [] →
    L.foldl (fun _ x => x) c ∈ L := by
  induction L with
  | nil => intro c h; exact absurd rfl h
  | cons i rest ih =>
    intro c _
    simp only [List.foldl_cons]
    by_cases hrest : rest = []
    · subst hrest; simp
    · exact List.mem_cons_of_mem i (ih i hrest)

@[simp] theorem reclaimSlot_dma (s : TxSt) (i : Nat) :
    (reclaimSlot s i).ring.dma = s.ring.dma := by
  simp [reclaimSlot]

@[simp] theorem reclaimSlot_freeCount (s : TxSt) (i : Nat) :
    (reclaimSlot s i).ring.freeCount = s.ring.freeCount + 1 := by
  simp [reclaimSlot]

@[simp] theorem reclaimSlot_lastFree (s : TxSt) (i : Nat) :
    (reclaimSlot s i).ring.lastFree = i := by
  simp [reclaimSlot]

@[simp] theorem reclaimSlot_nextFree (s : TxSt) (i : Nat) :
    (reclaimSlot s i).ring.nextFree = s.ring.nextFree := by
  simp [reclaimSlot]

@[simp] theorem reclaimSlot_dmaSize (s : TxSt) (i : Nat) :
    (reclaimSlot s i).ring.dmaSize = s.ring.dmaSize := by
  simp [reclaimSlot]

@[simp] theorem reclaimSlot_buf_self (s : TxSt) (i : Nat) :
    (reclaimSlot s i).ring.buf i =
      { s.ring.buf i with flagsSingle0 := false, flagsPage0 := false,
                          data := .null } := by
  simp [reclaimSlot]

theorem reclaimSlot_buf_ne (s : TxSt) (i j : Nat) (h : j ≠ i) :
    (reclaimSlot s i).ring.buf j = s.ring.buf j := by
  simp [reclaimSlot, unmap_buf_ne s i j h]

theorem consumesBudget_reclaim (s : TxSt) (i j : Nat) (h : j ≠ i) :
    consumesBudget (reclaimSlot s i) j = consumesBudget s j := by
  simp [consumesBudget, reclaimSlot_buf_ne s i j h]

/-- Auxiliary (claim C10, queue-aware loop): walking a completed span —
device-released slots chained from the release pointer up to the
hardware DRX value, every slot host-owned with an attached buffer — the
reclaim loop releases every slot of the span (free-slot counter up by the
span length, metadata left clean), stops exactly at the DRX value, and
decrements the budget only for the slots whose buffer is a real object,
not the reusable-placeholder sentinel. -/
theorem pollTxQdma_span (dp : Nat → Bool) (dmaPtr : Nat) :
    ∀ (L : List Nat) (s : TxSt) (st : PollSt) (cpu budget fuel : Nat),
      chainFrom s.ring.dma cpu L → L.Nodup → cpu ∉ L →
      (∀ i ∈ L, (s.ring.dma i).ownerCpu = true) →
      (∀ i ∈ L, (s.ring.buf i).data ≠ TxBufData.null) →
      dmaPtr = L.foldl (fun _ x => x) cpu →
      (L.filter (fun i => consumesBudget s i)).length < budget →
      L.length ≤ fuel →
      ((pollTxQdmaGo dp s st cpu dmaPtr budget fuel).1.ring.freeCount =
          s.ring.freeCount + L.length ∧
       (pollTxQdmaGo dp s st cpu dmaPtr budget fuel).2.2.1 =
          budget - (L.filter (fun i => consumesBudget s i)).length ∧
       (pollTxQdmaGo dp s st cpu dmaPtr budget fuel).2.2.2 = dmaPtr ∧
       (pollTxQdmaGo dp s st cpu dmaPtr budget fuel).1.ring.dma =
          s.ring.dma ∧
       (∀ i ∈ L, cleanTxBuf
          ((pollTxQdmaGo dp s st cpu dmaPtr budget fuel).1.ring.buf i)) ∧
       (∀ j, j ∉ L →
          (pollTxQdmaGo dp s st cpu dmaPtr budget fuel).1.ring.buf j =
            s.ring.buf j) ∧
       (L = [] → (pollTxQdmaGo dp s st cpu dmaPtr budget fuel).1 = s) ∧
       (L ≠ [] →
          (pollTxQdmaGo dp s st cpu dmaPtr budget fuel).1.ring.lastFree =
            dmaPtr)) := by
  intro L
  induction L with
  | nil =>
    intro s st cpu budget fuel hch hnd hcm how hnn hdp hbud hfl
    simp only [List.foldl_nil] at hdp
    subst hdp
    cases fuel <;> simp [pollTxQdmaGo]
  | cons i rest ih =>
    intro s st cpu budget fuel hch hnd hcm how hnn hdp hbud hfl
    obtain ⟨hch1, hchr⟩ := hch
    have hmem : dmaPtr ∈ i :: rest := by
      rw [hdp]; exact foldl_last_mem (i :: rest) cpu (by simp)
    have hcd : ¬(cpu = dmaPtr ∨ budget = 0) := by
      intro hor
      rcases hor with h1 | h2
      · exact hcm (h1 ▸ hmem)
      · omega
    have hi_rest : i ∉ rest := (List.nodup_cons.mp hnd).1
    have hnd_r : rest.Nodup := (List.nodup_cons.mp hnd).2
    have hown_i : (s.ring.dma i).ownerCpu = true := how i (by simp)
    have hnn_i : (s.ring.buf i).data ≠ TxBufData.null := hnn i (by simp)
    have hdp_r : dmaPtr = rest.foldl (fun _ x => x) i := by
      simpa [List.foldl_cons] using hdp
    have hch_r : chainFrom (reclaimSlot s i).ring.dma i rest := by
      rw [reclaimSlot_dma]; exact hchr
    have how_r : ∀ j ∈ rest, ((reclaimSlot s i).ring.dma j).ownerCpu =
        true := by
      intro j hj; rw [reclaimSlot_dma]; exact how j (by simp [hj])
    have hnn_r : ∀ j ∈ rest, ((reclaimSlot s i).ring.buf j).data ≠
        TxBufData.null := by
      intro j hj
      rw [reclaimSlot_buf_ne s i j (fun he => hi_rest (he ▸ hj))]
      exact hnn j (by simp [hj])
    have hfilter_r : rest.filter
        (fun j => consumesBudget (reclaimSlot s i) j) =
        rest.filter (fun j => consumesBudget s j) := by
      apply List.filter_congr
      intro j hj
      rw [consumesBudget_reclaim s i j (fun he => hi_rest (he ▸ hj))]
    cases fuel with
    | zero => simp at hfl
    | succ f =>
      have hfl_r : rest.length ≤ f := by simpa using hfl
      rcases hbd : (s.ring.buf i).data with _ | _ | skb | fr
      · exact absurd hbd hnn_i
      · -- reusable-placeholder sentinel: released without budget use
        have hcons : consumesBudget s i = false := by
          simp [consumesBudget, hbd]
        have hfC : (i :: rest).filter (fun j => consumesBudget s j) =
            rest.filter (fun j => consumesBudget s j) := by
          simp [List.filter_cons, hcons]
        have hbud_r : (rest.filter
            (fun j => consumesBudget (reclaimSlot s i) j)).length <
            budget := by
          rw [hfilter_r]; rw [hfC] at hbud; exact hbud
        have he : pollTxQdmaGo dp s st cpu dmaPtr budget (f + 1) =
            pollTxQdmaGo dp (reclaimSlot s i) st i dmaPtr budget f := by
          rw [pollTxQdmaGo]
          simp [hcd, hch1, hown_i, hbd]
        have ih2 := ih (reclaimSlot s i) st i budget f hch_r hnd_r hi_rest
          how_r hnn_r hdp_r hbud_r hfl_r
        rw [he, hfC]
        obtain ⟨e1, e2, e3, e4, e5, e6, e7, e8⟩ := ih2
        refine ⟨?_, ?_, e3, ?_, ?_, ?_, ?_, ?_⟩
        · rw [e1, reclaimSlot_freeCount]
          simp only [List.length_cons]
          push_cast
          omega
        · rw [e2, hfilter_r]
        · rw [e4, reclaimSlot_dma]
        · intro j hj
          rcases List.mem_cons.mp hj with hji | hjr
          · subst hji
            rw [e6 j hi_rest, reclaimSlot_buf_self]
            simp [cleanTxBuf]
          · exact e5 j hjr
        · intro j hj
          have hji : j ≠ i := fun he2 => hj (by simp [he2])
          have hjr : j ∉ rest := fun hr => hj (by simp [hr])
          rw [e6 j hjr, reclaimSlot_buf_ne s i j hji]
        · intro habs; exact absurd habs (by simp)
        · intro _
          by_cases hrest : rest = []
          · subst hrest
            rw [e7 rfl, reclaimSlot_lastFree]
            simpa using hdp_r.symm
          · exact e8 hrest
      · -- packet slot: consumes one budget unit
        have hcons : consumesBudget s i = true := by
          simp [consumesBudget, hbd]
        have hfC : (i :: rest).filter (fun j => consumesBudget s j) =
            i :: rest.filter (fun j => consumesBudget s j) := by
          simp [List.filter_cons, hcons]
        have hbud1 : (rest.filter (fun j => consumesBudget s j)).length <
            budget - 1 := by
          rw [hfC] at hbud; simp at hbud; omega
        have hbud_r : (rest.filter
            (fun j => consumesBudget (reclaimSlot s i) j)).length <
            budget - 1 := by
          rw [hfilter_r]; exact hbud1
        have he : pollTxQdmaGo dp s st cpu dmaPtr budget (f + 1) =
            pollTxQdmaGo dp (reclaimSlot s i)
              (mtk_poll_tx_done dp st (s.ring.buf i).macId skb) i dmaPtr
              (budget - 1) f := by
          rw [pollTxQdmaGo]
          simp [hcd, hch1, hown_i, hbd]
        have ih2 := ih (reclaimSlot s i)
          (mtk_poll_tx_done dp st (s.ring.buf i).macId skb) i (budget - 1)
          f hch_r hnd_r hi_rest how_r hnn_r hdp_r hbud_r hfl_r
        rw [he, hfC]
        obtain ⟨e1, e2, e3, e4, e5, e6, e7, e8⟩ := ih2
        refine ⟨?_, ?_, e3, ?_, ?_, ?_, ?_, ?_⟩
        · rw [e1, reclaimSlot_freeCount]
          simp only [List.length_cons]
          push_cast
          omega
        · rw [e2, hfilter_r]
          simp only [List.length_cons]
          omega
        · rw [e4, reclaimSlot_dma]
        · intro j hj
          rcases List.mem_cons.mp hj with hji | hjr
          · subst hji
            rw [e6 j hi_rest, reclaimSlot_buf_self]
            simp [cleanTxBuf]
          · exact e5 j hjr
        · intro j hj
          have hji : j ≠ i := fun he2 => hj (by simp [he2])
          have hjr : j ∉ rest := fun hr => hj (by simp [hr])
          rw [e6 j hjr, reclaimSlot_buf_ne s i j hji]
        · intro habs; exact absurd habs (by simp)
        · intro _
          by_cases hrest : rest = []
          · subst hrest
            rw [e7 rfl, reclaimSlot_lastFree]
            simpa using hdp_r.symm
          · exact e8 hrest
      · -- fast-path frame slot: consumes one budget unit
        have hcons : consumesBudget s i = true := by
          simp [consumesBudget, hbd]
        have hfC : (i :: rest).filter (fun j => consumesBudget s j) =
            i :: rest.filter (fun j => consumesBudget s j) := by
          simp [List.filter_cons, hcons]
        have hbud1 : (rest.filter (fun j => consumesBudget s j)).length <
            budget - 1 := by
          rw [hfC] at hbud; simp at hbud; omega
        have hbud_r : (rest.filter
            (fun j => consumesBudget (reclaimSlot s i) j)).length <
            budget - 1 := by
          rw [hfilter_r]; exact hbud1
        have he : pollTxQdmaGo dp s st cpu dmaPtr budget (f + 1) =
            pollTxQdmaGo dp (reclaimSlot s i) st i dmaPtr (budget - 1)
              f := by
          rw [pollTxQdmaGo]
          simp [hcd, hch1, hown_i, hbd]
        have ih2 := ih (reclaimSlot s i) st i (budget - 1) f hch_r hnd_r
          hi_rest how_r hnn_r hdp_r hbud_r hfl_r
        rw [he, hfC]
        obtain ⟨e1, e2, e3, e4, e5, e6, e7, e8⟩ := ih2
        refine ⟨?_, ?_, e3, ?_, ?_, ?_, ?_, ?_⟩
        · rw [e1, reclaimSlot_freeCount]
          simp only [List.length_cons]
          push_cast
          omega
        · rw [e2, hfilter_r]
          simp only [List.length_cons]
          omega
        · rw [e4, reclaimSlot_dma]
        · intro j hj
          rcases List.mem_cons.mp hj with hji | hjr
          · subst hji
            rw [e6 j hi_rest, reclaimSlot_buf_self]
            simp [cleanTxBuf]
          · exact e5 j hjr
        · intro j hj
          have hji : j ≠ i := fun he2 => hj (by simp [he2])
          have hjr : j ∉ rest := fun hr => hj (by simp [hr])
          rw [e6 j hjr, reclaimSlot_buf_ne s i j hji]
        · intro habs; exact absurd habs (by simp)
        · intro _
          by_cases hrest : rest = []
          · subst hrest
            rw [e7 rfl, reclaimSlot_lastFree]
            simpa using hdp_r.symm
          · exact e8 hrest


/-- Auxiliary: the sum of a constant-one map is the length. -/
theorem sum_map_one (l : List Nat) : (l.map fun _ => 1).sum = l.length := by
  induction l with
  | nil => rfl
  | cons x xs ih =>
    rw [List.map_cons, List.sum_cons, ih, List.length_cons]
    omega

/-- Claim C2, counterexample: the streak counters are not reset the moment
their own condition fails to hold, and a hang can be declared without
three consecutive true checks of the same signature.  Concretely: the
queue-DMA signature holds at checks 1, 2 and 4 and is observed false at
check 3 (where the reassembly-DMA signature holds, so the check exits
through the out label and skips all resets); the streak counter still
reads 2 after check 3 and the fourth check declares a hang. -/
theorem C2_hang_counterexample :
    runHangChecks ⟨0, 0, 0, 0⟩ [hangObsQ, hangObsQ, hangObsA, hangObsQ] =
      true ∧
    qdmaCond hangObsA = false ∧
    (hangStep (hangStep (hangStep ⟨0, 0, 0, 0⟩ hangObsQ) hangObsQ)
        hangObsA).qdma_hang_count = 2 := by
  decide

/-- Claim C2 as amended: the three signatures are evaluated in a fixed
priority order and a holding signature skips the later ones and every
reset, so (1) all three streak counters are reset only on a check where no
signature condition holds; (2) a hang is declared exactly on a check whose
first holding signature has a streak counter already at two or more — the
three true observations need not be consecutive when intervening checks
fire a different signature; and (3) the specific alternating scenario —
two different signatures each observed true twice, never consecutively on
the same signature — still declares no hang. -/
theorem C2_hang_streaks_amended :
    (∀ st o, wdmaCond st o = false → qdmaCond o = false →
       admaCond o = false →
       mtk_hw_check_dma_hang false st o =
         (false, { st with wdma_hang_count := 0, qdma_hang_count := 0,
                           adma_hang_count := 0, wdidx := o.wdidx })) ∧
    (∀ st o, (mtk_hw_check_dma_hang false st o).1 = true →
       (wdmaCond st o = true ∧ 2 ≤ st.wdma_hang_count) ∨
       (wdmaCond st o = false ∧ qdmaCond o = true ∧
         2 ≤ st.qdma_hang_count) ∨
       (wdmaCond st o = false ∧ qdmaCond o = false ∧ admaCond o = true ∧
         2 ≤ st.adma_hang_count)) ∧
    (∀ st o1 o2 o3 o4,
       st.wdma_hang_count = 0 → st.qdma_hang_count = 0 →
       st.adma_hang_count = 0 →
       wdmaCond st o1 = true →
       wdmaCond (hangStep st o1) o2 = false → qdmaCond o2 = true →
       wdmaCond (hangStep (hangStep st o1) o2) o3 = true →
       wdmaCond (hangStep (hangStep (hangStep st o1) o2) o3) o4 = false →
       qdmaCond o4 = true →
       runHangChecks st [o1, o2, o3, o4] = false) := by
  refine ⟨?_, ?_, ?_⟩
  · intro st o h1 h2 h3
    simp [mtk_hw_check_dma_hang, h1, h2, h3]
  · intro st o h
    revert h
    simp only [mtk_hw_check_dma_hang, if_false, Bool.false_eq_true]
    split_ifs with h1 h2 h3 h4 h5 h6 <;> simp_all <;> omega
  · intro st o1 o2 o3 o4 hw hq ha h1 h2 h3 h4 h5 h6
    obtain ⟨w, c1, c2, c3⟩ := st
    simp only [ResetSt.wdma_hang_count] at hw
    simp only [ResetSt.qdma_hang_count] at hq
    simp only [ResetSt.adma_hang_count] at ha
    subst hw hq ha
    have e1 : hangStep ⟨w, 0, 0, 0⟩ o1 = ⟨o1.wdidx, 1, 0, 0⟩ := by
      simp [hangStep, mtk_hw_check_dma_hang, h1]
    rw [e1] at h2 h4 h5
    have e2 : hangStep ⟨o1.wdidx, 1, 0, 0⟩ o2 = ⟨o2.wdidx, 1, 1, 0⟩ := by
      simp [hangStep, mtk_hw_check_dma_hang, h2, h3]
    rw [e2] at h4 h5
    have e3 : hangStep ⟨o2.wdidx, 1, 1, 0⟩ o3 = ⟨o3.wdidx, 2, 1, 0⟩ := by
      simp [hangStep, mtk_hw_check_dma_hang, h4]
    rw [e3] at h5
    simp [runHangChecks, hangStep, mtk_hw_check_dma_hang, h1, h2, h3, h4,
          h5, h6, e1, e2, e3]

/-- Witness for the amended C2 theorem: a no-signature check resets all
three counters; a bridging-DMA check with streak two declares the hang;
and the four-check alternating scenario (bridging, queue, bridging, queue)
declares none. -/
theorem C2_hang_streaks_amended_witness :
    (mtk_hw_check_dma_hang false ⟨5, 1, 2, 1⟩ hangObsNone =
      (false, ⟨77, 0, 0, 0⟩)) ∧
    ((wdmaCond ⟨1, 2, 0, 0⟩ hangObsW1 = true ∧ 2 ≤ 2) ∨
     (wdmaCond ⟨1, 2, 0, 0⟩ hangObsW1 = false ∧ qdmaCond hangObsW1 = true ∧
       2 ≤ 0) ∨
     (wdmaCond ⟨1, 2, 0, 0⟩ hangObsW1 = false ∧
       qdmaCond hangObsW1 = false ∧ admaCond hangObsW1 = true ∧ 2 ≤ 0)) ∧
    runHangChecks ⟨0, 0, 0, 0⟩ [hangObsW0, hangObsQ, hangObsW1, hangObsQ] =
      false := by
  refine ⟨?_, ?_, ?_⟩
  · exact C2_hang_streaks_amended.1 ⟨5, 1, 2, 1⟩ hangObsNone (by decide)
      (by decide) (by decide)
  · exact C2_hang_streaks_amended.2.1 ⟨1, 2, 0, 0⟩ hangObsW1 (by decide)
  · exact C2_hang_streaks_amended.2.2 ⟨0, 0, 0, 0⟩ hangObsW0 hangObsQ
      hangObsW1 hangObsQ rfl rfl rfl (by decide) (by decide) (by decide)
      (by decide) (by decide) (by decide)

/-- Auxiliary (claim C10, legacy loop): the same reclaim accounting for
mtk_poll_tx_pdma, whose walk advances over consecutive ring indices from
cpu_idx up to the hardware DTX index. -/
theorem pollTxPdma_span (dp : Nat → Bool) (dmaPtr : Nat) :
    ∀ (L : List Nat) (s : TxSt) (st : PollSt) (cpu budget fuel : Nat),
      stepChain s.ring.dmaSize cpu L → L.Nodup →
      (∀ i ∈ L, (s.ring.buf i).data ≠ TxBufData.null) →
      (∀ i ∈ L, i ≠ dmaPtr) →
      dmaPtr = L.foldl (fun c _ => (c + 1) % s.ring.dmaSize) cpu →
      (L.filter (fun i => consumesBudget s i)).length < budget →
      L.length ≤ fuel →
      ((pollTxPdmaGo dp s st cpu dmaPtr budget fuel).1.ring.freeCount =
          s.ring.freeCount + L.length ∧
       (pollTxPdmaGo dp s st cpu dmaPtr budget fuel).2.2.1 =
          budget - (L.filter (fun i => consumesBudget s i)).length ∧
       (pollTxPdmaGo dp s st cpu dmaPtr budget fuel).2.2.2 = dmaPtr ∧
       (pollTxPdmaGo dp s st cpu dmaPtr budget fuel).1.ring.dma =
          s.ring.dma ∧
       (∀ i ∈ L, cleanTxBuf
          ((pollTxPdmaGo dp s st cpu dmaPtr budget fuel).1.ring.buf i)) ∧
       (∀ j, j ∉ L →
          (pollTxPdmaGo dp s st cpu dmaPtr budget fuel).1.ring.buf j =
            s.ring.buf j) ∧
       (L = [] → (pollTxPdmaGo dp s st cpu dmaPtr budget fuel).1 = s)) := by
  intro L
  induction L with
  | nil =>
    intro s st cpu budget fuel hch hnd hnn hne hdp hbud hfl
    simp only [List.foldl_nil] at hdp
    subst hdp
    cases fuel <;> simp [pollTxPdmaGo]
  | cons i rest ih =>
    intro s st cpu budget fuel hch hnd hnn hne hdp hbud hfl
    obtain ⟨hic, hchr⟩ := hch
    subst hic
    have hcd : ¬(i = dmaPtr ∨ budget = 0) := by
      intro hor
      rcases hor with h1 | h2
      · exact hne i (by simp) h1
      · omega
    have hi_rest : i ∉ rest := (List.nodup_cons.mp hnd).1
    have hnd_r : rest.Nodup := (List.nodup_cons.mp hnd).2
    have hnn_i : (s.ring.buf i).data ≠ TxBufData.null := hnn i (by simp)
    have hdp_r : dmaPtr = rest.foldl
        (fun c _ => (c + 1) % s.ring.dmaSize) ((i + 1) % s.ring.dmaSize)
        := by simpa [List.foldl_cons] using hdp
    have hch_r : stepChain (reclaimSlot s i).ring.dmaSize
        ((i + 1) % s.ring.dmaSize) rest := by
      rw [reclaimSlot_dmaSize]; exact hchr
    have hnn_r : ∀ j ∈ rest, ((reclaimSlot s i).ring.buf j).data ≠
        TxBufData.null := by
      intro j hj
      rw [reclaimSlot_buf_ne s i j (fun he => hi_rest (he ▸ hj))]
      exact hnn j (by simp [hj])
    have hne_r : ∀ j ∈ rest, j ≠ dmaPtr := fun j hj =>
      hne j (by simp [hj])
    have hdp_r2 : dmaPtr = rest.foldl
        (fun c _ => (c + 1) % (reclaimSlot s i).ring.dmaSize)
        ((i + 1) % s.ring.dmaSize) := by
      rw [reclaimSlot_dmaSize]; exact hdp_r
    have hfilter_r : rest.filter
        (fun j => consumesBudget (reclaimSlot s i) j) =
        rest.filter (fun j => consumesBudget s j) := by
      apply List.filter_congr
      intro j hj
      rw [consumesBudget_reclaim s i j (fun he => hi_rest (he ▸ hj))]
    cases fuel with
    | zero => simp at hfl
    | succ f =>
      have hfl_r : rest.length ≤ f := by simpa using hfl
      rcases hbd : (s.ring.buf i).data with _ | _ | skb | fr
      · exact absurd hbd hnn_i
      · have hcons : consumesBudget s i = false := by
          simp [consumesBudget, hbd]
        have hfC : (i :: rest).filter (fun j => consumesBudget s j) =
            rest.filter (fun j => consumesBudget s j) := by
          simp [List.filter_cons, hcons]
        have hbud_r : (rest.filter
            (fun j => consumesBudget (reclaimSlot s i) j)).length <
            budget := by
          rw [hfilter_r]; rw [hfC] at hbud; exact hbud
        have he : pollTxPdmaGo dp s st i dmaPtr budget (f + 1) =
            pollTxPdmaGo dp (reclaimSlot s i) st
              ((i + 1) % s.ring.dmaSize) dmaPtr budget f := by
          rw [pollTxPdmaGo]
          simp [hcd, hbd]
        have ih2 := ih (reclaimSlot s i) st ((i + 1) % s.ring.dmaSize)
          budget f hch_r hnd_r hnn_r hne_r hdp_r2 hbud_r hfl_r
        rw [he, hfC]
        obtain ⟨e1, e2, e3, e4, e5, e6, e7⟩ := ih2
        refine ⟨?_, ?_, e3, ?_, ?_, ?_, ?_⟩
        · rw [e1, reclaimSlot_freeCount]
          simp only [List.length_cons]
          push_cast
          omega
        · rw [e2, hfilter_r]
        · rw [e4, reclaimSlot_dma]
        · intro j hj
          rcases List.mem_cons.mp hj with hji | hjr
          · subst hji
            rw [e6 j hi_rest, reclaimSlot_buf_self]
            simp [cleanTxBuf]
          · exact e5 j hjr
        · intro j hj
          have hji : j ≠ i := fun he2 => hj (by simp [he2])
          have hjr : j ∉ rest := fun hr => hj (by simp [hr])
          rw [e6 j hjr, reclaimSlot_buf_ne s i j hji]
        · intro habs; exact absurd habs (by simp)
      · have hcons : consumesBudget s i = true := by
          simp [consumesBudget, hbd]
        have hfC : (i :: rest).filter (fun j => consumesBudget s j) =
            i :: rest.filter (fun j => consumesBudget s j) := by
          simp [List.filter_cons, hcons]
        have hbud1 : (rest.filter (fun j => consumesBudget s j)).length <
            budget - 1 := by
          rw [hfC] at hbud; simp at hbud; omega
        have hbud_r : (rest.filter
            (fun j => consumesBudget (reclaimSlot s i) j)).length <
            budget - 1 := by
          rw [hfilter_r]; exact hbud1
        have he : pollTxPdmaGo dp s st i dmaPtr budget (f + 1) =
            pollTxPdmaGo dp (reclaimSlot s i)
              (mtk_poll_tx_done dp st 0 skb) ((i + 1) % s.ring.dmaSize)
              dmaPtr (budget - 1) f := by
          rw [pollTxPdmaGo]
          simp [hcd, hbd]
        have ih2 := ih (reclaimSlot s i) (mtk_poll_tx_done dp st 0 skb)
          ((i + 1) % s.ring.dmaSize) (budget - 1) f hch_r hnd_r hnn_r
          hne_r hdp_r2 hbud_r hfl_r
        rw [he, hfC]
        obtain ⟨e1, e2, e3, e4, e5, e6, e7⟩ := ih2
        refine ⟨?_, ?_, e3, ?_, ?_, ?_, ?_⟩
        · rw [e1, reclaimSlot_freeCount]
          simp only [List.length_cons]
          push_cast
          omega
        · rw [e2, hfilter_r]
          simp only [List.length_cons]
          omega
        · rw [e4, reclaimSlot_dma]
        · intro j hj
          rcases List.mem_cons.mp hj with hji | hjr
          · subst hji
            rw [e6 j hi_rest, reclaimSlot_buf_self]
            simp [cleanTxBuf]
          · exact e5 j hjr
        · intro j hj
          have hji : j ≠ i := fun he2 => hj (by simp [he2])
          have hjr : j ∉ rest := fun hr => hj (by simp [hr])
          rw [e6 j hjr, reclaimSlot_buf_ne s i j hji]
        · intro habs; exact absurd habs (by simp)
      · have hcons : consumesBudget s i = true := by
          simp [consumesBudget, hbd]
        have hfC : (i :: rest).filter (fun j => consumesBudget s j) =
            i :: rest.filter (fun j => consumesBudget s j) := by
          simp [List.filter_cons, hcons]
        have hbud1 : (rest.filter (fun j => consumesBudget s j)).length <
            budget - 1 := by
          rw [hfC] at hbud; simp at hbud; omega
        have hbud_r : (rest.filter
            (fun j => consumesBudget (reclaimSlot s i) j)).length <
            budget - 1 := by
          rw [hfilter_r]; exact hbud1
        have he : pollTxPdmaGo dp s st i dmaPtr budget (f + 1) =
            pollTxPdmaGo dp (reclaimSlot s i) st
              ((i + 1) % s.ring.dmaSize) dmaPtr (budget - 1) f := by
          rw [pollTxPdmaGo]
          simp [hcd, hbd]
        have ih2 := ih (reclaimSlot s i) st ((i + 1) % s.ring.dmaSize)
          (budget - 1) f hch_r hnd_r hnn_r hne_r hdp_r2 hbud_r hfl_r
        rw [he, hfC]
        obtain ⟨e1, e2, e3, e4, e5, e6, e7⟩ := ih2
        refine ⟨?_, ?_, e3, ?_, ?_, ?_, ?_⟩
        · rw [e1, reclaimSlot_freeCount]
          simp only [List.length_cons]
          push_cast
          omega
        · rw [e2, hfilter_r]
          simp only [List.length_cons]
          omega
        · rw [e4, reclaimSlot_dma]
        · intro j hj
          rcases List.mem_cons.mp hj with hji | hjr
          · subst hji
            rw [e6 j hi_rest, reclaimSlot_buf_self]
            simp [cleanTxBuf]
          · exact e5 j hjr
        · intro j hj
          have hji : j ≠ i := fun he2 => hj (by simp [he2])
          have hjr : j ∉ rest := fun hr => hj (by simp [hr])
          rw [e6 j hjr, reclaimSlot_buf_ne s i j hji]
        · intro habs; exact absurd habs (by simp)

/-- Claim C3: the submission entry point computes the descriptor
requirement as 1 plus, per scatter-gather fragment, one descriptor — or,
when segmentation offload is requested, one per
maximum-per-descriptor-transfer-length chunk of the fragment — and
whenever the free-slot count is not strictly greater than that
requirement it returns Busy with the ring state unchanged (only the
queues are stopped). -/
theorem C3_submit_requirement_gate (soc : SocData) (env : DmaEnv)
    (macId : Nat) (e : EthSt) (skb : Skb) (hr : e.resetting = false) :
    mtk_cal_txd_req soc skb =
      1 + (skb.frags.map (fun f =>
            if skb.gso then DIV_ROUND_UP f soc.dma_max_len else 1)).sum ∧
    (e.tx.ring.freeCount ≤ (mtk_cal_txd_req soc skb : Int) →
      mtk_start_xmit soc env macId e skb =
        (.busy, { e with queueStopped := true })) := by
  constructor
  · cases hg : skb.gso <;> simp [mtk_cal_txd_req, hg, sum_map_one]
  · intro hle
    simp [mtk_start_xmit, hr, hle]

/-- Witness for C3: on a fresh depth-4 ring (two free slots) a
three-fragment packet needs four descriptors and is refused with Busy. -/
theorem C3_submit_requirement_gate_witness :
    mtk_cal_txd_req socW skbC3 =
      1 + (skbC3.frags.map (fun f =>
            if skbC3.gso then DIV_ROUND_UP f socW.dma_max_len else 1)).sum ∧
    mtk_start_xmit socW envAllMaps 0 ethC3 skbC3 =
      (.busy, { ethC3 with queueStopped := true }) :=
  ⟨(C3_submit_requirement_gate socW envAllMaps 0 ethC3 skbC3 rfl).1,
   (C3_submit_requirement_gate socW envAllMaps 0 ethC3 skbC3 rfl).2
     (by decide)⟩

/-- Claim C5, counterexample: with the resetting flag set, the normal
submission entry point does not reject with Busy — it frees the packet,
counts a transmit drop and reports Ok (the drop label of
mtk_start_xmit). -/
theorem C5_resetting_counterexample :
    ethReset.resetting = true ∧
    (mtk_start_xmit socW envAllMaps 0 ethReset skb64).1 = NetdevTx.ok ∧
    (mtk_start_xmit socW envAllMaps 0 ethReset skb64).1 ≠ NetdevTx.busy ∧
    (mtk_start_xmit socW envAllMaps 0 ethReset skb64).2.txDropped =
      ethReset.txDropped + 1 ∧
    (mtk_start_xmit socW envAllMaps 0 ethReset skb64).2.tx.ring.freeCount =
      ethReset.tx.ring.freeCount := by
  decide

/-- Claim C5 as amended: while the resetting flag is set, both hot-path
entry points check it first and reject immediately without touching ring
or hardware state and without queuing the packet — the fast-path
submission returns Busy with the state unchanged, and the normal
submission drops the packet (counting a transmit drop) and reports Ok,
consuming rather than queuing it. -/
theorem C5_resetting_fail_fast_amended (soc : SocData) (env : DmaEnv)
    (macId : Nat) (e : EthSt) (skb : Skb) (s : TxSt) (xdpf : XdpFrame)
    (dma_map : Bool) (hr : e.resetting = true) :
    mtk_start_xmit soc env macId e skb =
      (.ok, { e with txDropped := e.txDropped + 1 }) ∧
    mtk_xdp_submit_frame env true macId s xdpf dma_map = (.ebusy, s) := by
  constructor
  · simp [mtk_start_xmit, hr]
  · simp [mtk_xdp_submit_frame]

/-- Witness for the amended C5 theorem at a concrete resetting state. -/
theorem C5_resetting_fail_fast_amended_witness :
    mtk_start_xmit socW envAllMaps 0 ethReset skb64 =
      (.ok, { ethReset with txDropped := ethReset.txDropped + 1 }) ∧
    mtk_xdp_submit_frame envAllMaps true 0 (mtk_tx_alloc 8) frameW false =
      (.ebusy, mtk_tx_alloc 8) :=
  C5_resetting_fail_fast_amended socW envAllMaps 0 ethReset skb64
    (mtk_tx_alloc 8) frameW false rfl

/-- Claim C6, end-to-end scenario A: a fresh transmit ring of depth 256
starts with 254 free slots; submitting a single 64-byte linear packet
consumes exactly one descriptor (producer moves from slot 0 to slot 1,
free count 253); after the device marks the descriptor done, reclaim
reports exactly one completed packet and restores the free count to
254. -/
theorem C6_scenario_single_packet :
    (mtk_tx_alloc 256).ring.freeCount = 254 ∧
    (mtk_tx_map socW envAllMaps 0 (mtk_tx_alloc 256) skb64 false).1 =
      TxRes.ok ∧
    (mtk_tx_map socW envAllMaps 0 (mtk_tx_alloc 256) skb64
      false).2.ring.freeCount = 253 ∧
    (mtk_tx_map socW envAllMaps 0 (mtk_tx_alloc 256) skb64
      false).2.ring.nextFree = 1 ∧
    (mtk_poll_tx (fun _ => true)
      (deviceComplete
        (mtk_tx_map socW envAllMaps 0 (mtk_tx_alloc 256) skb64 false).2 0)
      0 64 false).1 = 1 ∧
    (mtk_poll_tx (fun _ => true)
      (deviceComplete
        (mtk_tx_map socW envAllMaps 0 (mtk_tx_alloc 256) skb64 false).2 0)
      0 64 false).2.1.ring.freeCount = 254 := by
  decide

/-- Claim C7, end-to-end scenario C: a segmentation-offload packet whose
single fragment is 1.5 times the maximum per-descriptor transfer length
is split into exactly two extra descriptors — the first carrying exactly
the maximum length and not marked last, the second carrying the remainder
and marked last — and the computed requirement is 3 (head plus two
chunks); the next slot is untouched and exactly three descriptors are
consumed. -/
theorem C7_gso_fragment_split :
    mtk_cal_txd_req socC7 skbC7 = 3 ∧
    (mtk_tx_map socC7 envAllMaps 0 (mtk_tx_alloc 16) skbC7 true).1 =
      TxRes.ok ∧
    ((mtk_tx_map socC7 envAllMaps 0 (mtk_tx_alloc 16) skbC7
       true).2.ring.dma 1).plen = socC7.dma_max_len ∧
    ((mtk_tx_map socC7 envAllMaps 0 (mtk_tx_alloc 16) skbC7
       true).2.ring.dma 1).ls0 = false ∧
    ((mtk_tx_map socC7 envAllMaps 0 (mtk_tx_alloc 16) skbC7
       true).2.ring.dma 2).plen = 2 ∧
    ((mtk_tx_map socC7 envAllMaps 0 (mtk_tx_alloc 16) skbC7
       true).2.ring.dma 2).ls0 = true ∧
    (mtk_tx_map socC7 envAllMaps 0 (mtk_tx_alloc 16) skbC7
      true).2.ring.dma 3 = (mtk_tx_alloc 16).ring.dma 3 ∧
    (mtk_tx_map socC7 envAllMaps 0 (mtk_tx_alloc 16) skbC7
      true).2.ring.nextFree = 3 ∧
    (mtk_tx_map socC7 envAllMaps 0 (mtk_tx_alloc 16) skbC7
      true).2.ring.freeCount = (mtk_tx_alloc 16).ring.freeCount - 3 := by
  decide

/-- Auxiliary: every fast-path invocation with a program attached lands in
exactly one of five counter outcomes — pass, drop (with the buffer
returned to the pool), redirect, local retransmit, or local transmit
error (with the buffer returned to the pool). -/
theorem xdp_run_cases (env : DmaEnv) (xenv : XdpEnv) (i : Nat)
    (resetting : Bool) (macId : Nat) (s : TxSt) (stats : XdpStats)
    (poolPut : Nat) (xdp : XdpBuff) :
    ((mtk_xdp_run true env xenv i resetting macId s stats poolPut
        xdp).2.2.1 =
       { stats with rx_xdp_pass := stats.rx_xdp_pass + 1 } ∧
     (mtk_xdp_run true env xenv i resetting macId s stats poolPut
        xdp).2.2.2 = poolPut) ∨
    ((mtk_xdp_run true env xenv i resetting macId s stats poolPut
        xdp).2.2.1 =
       { stats with rx_xdp_drop := stats.rx_xdp_drop + 1 } ∧
     (mtk_xdp_run true env xenv i resetting macId s stats poolPut
        xdp).2.2.2 = poolPut + 1) ∨
    ((mtk_xdp_run true env xenv i resetting macId s stats poolPut
        xdp).2.2.1 =
       { stats with rx_xdp_redirect := stats.rx_xdp_redirect + 1 } ∧
     (mtk_xdp_run true env xenv i resetting macId s stats poolPut
        xdp).2.2.2 = poolPut) ∨
    ((mtk_xdp_run true env xenv i resetting macId s stats poolPut
        xdp).2.2.1 =
       { stats with rx_xdp_tx := stats.rx_xdp_tx + 1 } ∧
     (mtk_xdp_run true env xenv i resetting macId s stats poolPut
        xdp).2.2.2 = poolPut) ∨
    ((mtk_xdp_run true env xenv i resetting macId s stats poolPut
        xdp).2.2.1 =
       { stats with rx_xdp_tx_errors := stats.rx_xdp_tx_errors + 1 } ∧
     (mtk_xdp_run true env xenv i resetting macId s stats poolPut
        xdp).2.2.2 = poolPut + 1) := by
  unfold mtk_xdp_run
  simp only [XDP_PASS, XDP_REDIRECT, XDP_TX, XDP_DROP, XDP_ABORTED]
  by_cases h1 : xenv.act i = 2
  · simp [h1]
  · by_cases h2 : xenv.act i = 4
    · by_cases h3 : xenv.redirectOk i
      · simp [h1, h2, h3]
      · simp [h1, h2, h3]
    · by_cases h4 : xenv.act i = 3
      · by_cases h5 : xenv.convertOk i
        · rcases hs : mtk_xdp_submit_frame env resetting macId s
            { len := xdp.pktlen, frags := [], headroom := xdp.headroom,
              poolAddr := xdp.poolAddr } false with ⟨res, s1⟩
          cases res <;> simp [h1, h2, h4, h5, hs]
        · simp [h1, h2, h4, h5]
      · simp [h1, h2, h4]

/-- Auxiliary: one fast-path invocation with a program attached adds
exactly one to the total of the verdict counters. -/
theorem xdp_run_statsSum (env : DmaEnv) (xenv : XdpEnv) (i : Nat)
    (resetting : Bool) (macId : Nat) (s : TxSt) (stats : XdpStats)
    (poolPut : Nat) (xdp : XdpBuff) :
    statsSum (mtk_xdp_run true env xenv i resetting macId s stats poolPut
      xdp).2.2.1 = statsSum stats + 1 := by
  rcases xdp_run_cases env xenv i resetting macId s stats poolPut xdp with
    ⟨h, _⟩ | ⟨h, _⟩ | ⟨h, _⟩ | ⟨h, _⟩ | ⟨h, _⟩ <;>
    rw [h] <;> simp [statsSum] <;> omega

/-- Claim C8: with a program attached, every fast-path invocation
increments exactly one of the five per-verdict counters (pass, drop,
redirect, local retransmit, local transmit error), so the counters sum
over any window to the number of invocations; a verdict outside the known
set falls through to the drop handling, returning the buffer to the pool
and incrementing the drop counter. -/
theorem C8_xdp_verdict_counters :
    (∀ env xenv i resetting macId s stats poolPut xdp,
      statsSum (mtk_xdp_run true env xenv i resetting macId s stats poolPut
        xdp).2.2.1 = statsSum stats + 1 ∧
      ((mtk_xdp_run true env xenv i resetting macId s stats poolPut
          xdp).2.2.1 =
         { stats with rx_xdp_pass := stats.rx_xdp_pass + 1 } ∨
       (mtk_xdp_run true env xenv i resetting macId s stats poolPut
          xdp).2.2.1 =
         { stats with rx_xdp_drop := stats.rx_xdp_drop + 1 } ∨
       (mtk_xdp_run true env xenv i resetting macId s stats poolPut
          xdp).2.2.1 =
         { stats with rx_xdp_redirect := stats.rx_xdp_redirect + 1 } ∨
       (mtk_xdp_run true env xenv i resetting macId s stats poolPut
          xdp).2.2.1 =
         { stats with rx_xdp_tx := stats.rx_xdp_tx + 1 } ∨
       (mtk_xdp_run true env xenv i resetting macId s stats poolPut
          xdp).2.2.1 =
         { stats with rx_xdp_tx_errors := stats.rx_xdp_tx_errors + 1 }) ∧
      (xenv.act i ≠ XDP_ABORTED → xenv.act i ≠ XDP_DROP →
       xenv.act i ≠ XDP_PASS → xenv.act i ≠ XDP_TX →
       xenv.act i ≠ XDP_REDIRECT →
       (mtk_xdp_run true env xenv i resetting macId s stats poolPut
          xdp).2.2.1.rx_xdp_drop = stats.rx_xdp_drop + 1 ∧
       (mtk_xdp_run true env xenv i resetting macId s stats poolPut
          xdp).2.2.2 = poolPut + 1)) ∧
    (∀ env xenv resetting macId bufs i s stats poolPut,
      statsSum (runXdpWindow true env xenv resetting macId s stats poolPut
        i bufs).2.1 = statsSum stats + bufs.length) := by
  constructor
  · intro env xenv i resetting macId s stats poolPut xdp
    refine ⟨xdp_run_statsSum env xenv i resetting macId s stats poolPut xdp,
      ?_, ?_⟩
    · rcases xdp_run_cases env xenv i resetting macId s stats poolPut xdp
        with ⟨h, _⟩ | ⟨h, _⟩ | ⟨h, _⟩ | ⟨h, _⟩ | ⟨h, _⟩
      · exact Or.inl h
      · exact Or.inr (Or.inl h)
      · exact Or.inr (Or.inr (Or.inl h))
      · exact Or.inr (Or.inr (Or.inr (Or.inl h)))
      · exact Or.inr (Or.inr (Or.inr (Or.inr h)))
    · intro ha hd hp ht hr
      simp [mtk_xdp_run, hp, ht, hr]
  · intro env xenv resetting macId bufs
    induction bufs with
    | nil => intro i s stats poolPut; simp [runXdpWindow]
    | cons b rest ih =>
      intro i s stats poolPut
      simp only [runXdpWindow, List.length_cons]
      rw [ih, xdp_run_statsSum]
      omega

/-- Witness for C8: an out-of-range verdict (9) on a concrete state bumps
the drop counter and the pool-return ghost, and a two-invocation window
adds two to the counter total. -/
theorem C8_xdp_verdict_counters_witness :
    (mtk_xdp_run true envAllMaps xenvInvalid 0 false 0 (mtk_tx_alloc 8)
      zeroStats 0 xdpBuffW).2.2.1.rx_xdp_drop =
        zeroStats.rx_xdp_drop + 1 ∧
    (mtk_xdp_run true envAllMaps xenvInvalid 0 false 0 (mtk_tx_alloc 8)
      zeroStats 0 xdpBuffW).2.2.2 = 0 + 1 ∧
    statsSum (runXdpWindow true envAllMaps xenvInvalid false 0
      (mtk_tx_alloc 8) zeroStats 0 0 [xdpBuffW, xdpBuffW]).2.1 =
      statsSum zeroStats + 2 := by
  refine ⟨?_, ?_, ?_⟩
  · exact ((C8_xdp_verdict_counters.1 envAllMaps xenvInvalid 0 false 0
      (mtk_tx_alloc 8) zeroStats 0 xdpBuffW).2.2 (by decide) (by decide)
      (by decide) (by decide) (by decide)).1
  · exact ((C8_xdp_verdict_counters.1 envAllMaps xenvInvalid 0 false 0
      (mtk_tx_alloc 8) zeroStats 0 xdpBuffW).2.2 (by decide) (by decide)
      (by decide) (by decide) (by decide)).2
  · exact C8_xdp_verdict_counters.2 envAllMaps xenvInvalid false 0
      [xdpBuffW, xdpBuffW] 0 (mtk_tx_alloc 8) zeroStats 0

/-- Auxiliary: the mtk_napi_rx loop, on a terminating run, either returns
the full budget (without re-enabling the interrupt) or exits only after a
status re-read showed no pending completions, re-enabling the interrupt
exactly when napi_complete_done accepts. -/
theorem napiRxGo_spec (cfg : RxCfg) (env : DmaEnv) (xenv : XdpEnv)
    (renv : RxEnv) (nenv : NapiEnv) (budget : Nat) :
    ∀ fuel st total readIdx r,
      napiRxGo cfg env xenv renv nenv budget st total readIdx fuel =
        some r →
      (r.1 = budget ∧ r.2.2.1 = false) ∨
      (nenv.rxPending (r.2.2.2 - 1) = false ∧ r.2.2.1 = nenv.completeOk) := by
  intro fuel
  induction fuel with
  | zero => intro st total readIdx r h; exact absurd h (by simp [napiRxGo])
  | succ fuel ih =>
    intro st total readIdx r h
    rw [napiRxGo] at h
    by_cases h1 : total + (mtk_poll_rx cfg env xenv renv (budget - total)
        st).1 = budget
    · left
      simp only [h1, if_true] at h
      cases h
      exact ⟨rfl, rfl⟩
    · by_cases h2 : nenv.rxPending readIdx
      · simp only [h1, if_false, h2, if_true] at h
        exact ih _ _ _ _ h
      · right
        by_cases h3 : nenv.completeOk
        · simp only [h1, h2, h3, if_false, if_true] at h
          cases h
          simpa [h3] using h2
        · simp only [h1, h2, h3, if_false] at h
          cases h
          simp only [Nat.add_sub_cancel]
          constructor
          · simpa using h2
          · simp [eq_comm, h3]

/-- Claim C9: after draining within its budget each per-direction poll
routine re-reads the hardware completion-status register before yielding.
Transmit: mtk_napi_tx returns the full budget exactly when the budget was
consumed or the re-read still shows pending transmit completions, it
re-enables the transmit interrupt exactly when it completes (budget not
consumed, no pending status, completion accepted), and otherwise returns
the drained count.  Receive: a terminating mtk_napi_rx run either returns
the full budget, or exits only after a status re-read showed no pending
completions, re-enabling the receive interrupt when the completion is
accepted. -/
theorem C9_napi_recheck_before_yield :
    (∀ (devPresent : Nat → Bool) (nenv : NapiEnv) (s : TxSt) (qs : Bool)
       (budget : Nat),
      ((mtk_napi_tx devPresent nenv s qs budget).1 = budget ↔
        ((mtk_poll_tx devPresent s nenv.drx budget qs).1 = budget ∨
          nenv.txPending = true)) ∧
      ((mtk_napi_tx devPresent nenv s qs budget).2.2.2 = true ↔
        ((mtk_poll_tx devPresent s nenv.drx budget qs).1 ≠ budget ∧
          nenv.txPending = false ∧ nenv.completeOk = true)) ∧
      ((mtk_napi_tx devPresent nenv s qs budget).1 ≠ budget →
        (mtk_napi_tx devPresent nenv s qs budget).1 =
          (mtk_poll_tx devPresent s nenv.drx budget qs).1)) ∧
    (∀ cfg env xenv renv nenv budget st fuel r,
      mtk_napi_rx cfg env xenv renv nenv budget st fuel = some r →
      (r.1 = budget ∧ r.2.2.1 = false) ∨
      (nenv.rxPending (r.2.2.2 - 1) = false ∧
        r.2.2.1 = nenv.completeOk)) := by
  constructor
  · intro devPresent nenv s qs budget
    unfold mtk_napi_tx
    by_cases h1 : (mtk_poll_tx devPresent s nenv.drx budget qs).1 = budget
    · simp [h1]
    · by_cases h2 : nenv.txPending
      · simp [h1, h2]
      · by_cases h3 : nenv.completeOk <;> simp [h1, h2, h3]
  · intro cfg env xenv renv nenv budget st fuel r h
    exact napiRxGo_spec cfg env xenv renv nenv budget fuel st 0 0 r h

/-- Witness for C9 on concrete states: a transmit poll that drains nothing
(DRX equal to the release pointer) with no pending status completes and
re-enables, and a receive napi run over an empty ring returns 0 having
observed a clear status register. -/
theorem C9_napi_recheck_witness :
    (((mtk_napi_tx (fun _ => true) nenvW (mtk_tx_alloc 8) false 64).1 =
        64 ↔
      ((mtk_poll_tx (fun _ => true) (mtk_tx_alloc 8) nenvW.drx 64
          false).1 = 64 ∨ nenvW.txPending = true)) ∧
     ((mtk_napi_tx (fun _ => true) nenvW (mtk_tx_alloc 8) false 64).2.2.2 =
        true ↔
      ((mtk_poll_tx (fun _ => true) (mtk_tx_alloc 8) nenvW.drx 64
          false).1 ≠ 64 ∧ nenvW.txPending = false ∧
        nenvW.completeOk = true)) ∧
     ((mtk_napi_tx (fun _ => true) nenvW (mtk_tx_alloc 8) false 64).1 ≠
        64 →
      (mtk_napi_tx (fun _ => true) nenvW (mtk_tx_alloc 8) false 64).1 =
        (mtk_poll_tx (fun _ => true) (mtk_tx_alloc 8) nenvW.drx 64
          false).1)) ∧
    (((0 : Nat) = 8 ∧ true = false) ∨
      (nenvW.rxPending 0 = false ∧ true = nenvW.completeOk)) := by
  constructor
  · exact C9_napi_recheck_before_yield.1 (fun _ => true) nenvW
      (mtk_tx_alloc 8) false 64
  · exact C9_napi_recheck_before_yield.2 rxCfgW envAllMaps xenvInvalid
      renvW nenvW 8 rxStEmpty 3 (0, rxStEmpty, true, 1) rfl

/-- Claim C10: transmit reclaim budget counts completed packets, not ring
slots.  Over a completed span, both reclaim realisations release every
slot — incrementing the free-slot counter per slot, clearing the metadata,
and advancing the completion pointer to the hardware index — while the
budget drops only by the number of slots whose buffer is a real packet or
frame object; slots holding the placeholder sentinel are released for
free. -/
theorem C10_reclaim_budget_counts_packets :
    (∀ (dp : Nat → Bool) (s : TxSt) (st : PollSt) (budget dmaPtr : Nat)
       (L : List Nat),
      chainFrom s.ring.dma s.ring.lastFreePtr L → L.Nodup →
      s.ring.lastFreePtr ∉ L →
      (∀ i ∈ L, (s.ring.dma i).ownerCpu = true) →
      (∀ i ∈ L, (s.ring.buf i).data ≠ TxBufData.null) →
      dmaPtr = L.foldl (fun _ x => x) s.ring.lastFreePtr →
      (L.filter (fun i => consumesBudget s i)).length < budget →
      L.length ≤ s.ring.dmaSize →
      ((mtk_poll_tx_qdma dp s dmaPtr budget st).1.ring.freeCount =
          s.ring.freeCount + L.length ∧
       (mtk_poll_tx_qdma dp s dmaPtr budget st).2.2 =
          budget - (L.filter (fun i => consumesBudget s i)).length ∧
       (mtk_poll_tx_qdma dp s dmaPtr budget st).1.ring.lastFreePtr =
          dmaPtr ∧
       (∀ i ∈ L, cleanTxBuf
          ((mtk_poll_tx_qdma dp s dmaPtr budget st).1.ring.buf i)) ∧
       (∀ j, j ∉ L →
          (mtk_poll_tx_qdma dp s dmaPtr budget st).1.ring.buf j =
            s.ring.buf j))) ∧
    (∀ (dp : Nat → Bool) (s : TxSt) (st : PollSt) (budget dmaPtr : Nat)
       (L : List Nat),
      stepChain s.ring.dmaSize s.ring.cpuIdx L → L.Nodup →
      (∀ i ∈ L, (s.ring.buf i).data ≠ TxBufData.null) →
      (∀ i ∈ L, i ≠ dmaPtr) →
      dmaPtr = L.foldl (fun c _ => (c + 1) % s.ring.dmaSize)
        s.ring.cpuIdx →
      (L.filter (fun i => consumesBudget s i)).length < budget →
      L.length ≤ s.ring.dmaSize →
      ((mtk_poll_tx_pdma dp s dmaPtr budget st).1.ring.freeCount =
          s.ring.freeCount + L.length ∧
       (mtk_poll_tx_pdma dp s dmaPtr budget st).2.2 =
          budget - (L.filter (fun i => consumesBudget s i)).length ∧
       (mtk_poll_tx_pdma dp s dmaPtr budget st).1.ring.cpuIdx = dmaPtr ∧
       (∀ i ∈ L, cleanTxBuf
          ((mtk_poll_tx_pdma dp s dmaPtr budget st).1.ring.buf i)) ∧
       (∀ j, j ∉ L →
          (mtk_poll_tx_pdma dp s dmaPtr budget st).1.ring.buf j =
            s.ring.buf j))) := by
  constructor
  · intro dp s st budget dmaPtr L hch hnd hcm how hnn hdp hbud hfl
    obtain ⟨e1, e2, e3, e4, e5, e6, e7, e8⟩ := pollTxQdma_span dp dmaPtr L
      s st s.ring.lastFreePtr budget s.ring.dmaSize hch hnd hcm how hnn
      hdp hbud hfl
    simp only [mtk_poll_tx_qdma]
    exact ⟨e1, e2, e3, e5, e6⟩
  · intro dp s st budget dmaPtr L hch hnd hnn hne hdp hbud hfl
    obtain ⟨e1, e2, e3, e4, e5, e6, e7⟩ := pollTxPdma_span dp dmaPtr L
      s st s.ring.cpuIdx budget s.ring.dmaSize hch hnd hnn hne hdp hbud
      hfl
    simp only [mtk_poll_tx_pdma]
    exact ⟨e1, e2, e3, e5, e6⟩

/-- Witness for C10 on a concrete three-slot span (packet, placeholder,
packet) in both realisations: three slots are released (free count 6 to
9) while only two budget units are consumed (10 to 8). -/
theorem C10_reclaim_budget_witness :
    (mtk_poll_tx_qdma (fun _ => true) txStC10 2 10
      ⟨none, 0, 0, 0⟩).1.ring.freeCount = txStC10.ring.freeCount + 3 ∧
    (mtk_poll_tx_qdma (fun _ => true) txStC10 2 10
      ⟨none, 0, 0, 0⟩).2.2 = 8 ∧
    (mtk_poll_tx_qdma (fun _ => true) txStC10 2 10
      ⟨none, 0, 0, 0⟩).1.ring.lastFreePtr = 2 ∧
    (mtk_poll_tx_pdma (fun _ => true) txStC10 3 10
      ⟨none, 0, 0, 0⟩).1.ring.freeCount = txStC10.ring.freeCount + 3 ∧
    (mtk_poll_tx_pdma (fun _ => true) txStC10 3 10
      ⟨none, 0, 0, 0⟩).2.2 = 8 ∧
    (mtk_poll_tx_pdma (fun _ => true) txStC10 3 10
      ⟨none, 0, 0, 0⟩).1.ring.cpuIdx = 3 := by
  have hq := C10_reclaim_budget_counts_packets.1 (fun _ => true) txStC10
    ⟨none, 0, 0, 0⟩ 10 2 [0, 1, 2] ⟨rfl, rfl, rfl, trivial⟩ (by decide)
    (by decide) (by decide) (by decide) rfl (by decide) (by decide)
  have hp := C10_reclaim_budget_counts_packets.2 (fun _ => true) txStC10
    ⟨none, 0, 0, 0⟩ 10 3 [0, 1, 2] ⟨rfl, rfl, rfl, trivial⟩ (by decide)
    (by decide) (by decide) rfl (by decide) (by decide)
  exact ⟨hq.1, hq.2.1, hq.2.2.1, hp.1, hp.2.1, hp.2.2.1⟩

@[simp] theorem releaseDesc_delivered (st : RxSt) (idx : Nat)
    (repl : Option (Nat × Nat)) :
    (releaseDesc st idx repl).delivered = st.delivered := by
  rcases repl with _ | ⟨nb, nd⟩ <;> simp [releaseDesc]

@[simp] theorem releaseDesc_rxDropped (st : RxSt) (idx : Nat)
    (repl : Option (Nat × Nat)) :
    (releaseDesc st idx repl).rxDropped = st.rxDropped := by
  rcases repl with _ | ⟨nb, nd⟩ <;> simp [releaseDesc]

@[simp] theorem releaseDesc_none_dataR (st : RxSt) (idx : Nat) :
    (releaseDesc st idx none).ring.dataR = st.ring.dataR := by
  simp [releaseDesc]

@[simp] theorem releaseDesc_none_dmaR_self (st : RxSt) (idx : Nat) :
    (releaseDesc st idx none).ring.dmaR idx =
      { st.ring.dmaR idx with done := false,
                              plen := st.ring.bufSize } := by
  simp [releaseDesc]

@[simp] theorem releaseDesc_some_dataR_self (st : RxSt) (idx nb nd : Nat) :
    (releaseDesc st idx (some (nb, nd))).ring.dataR idx = nb := by
  simp [releaseDesc]

@[simp] theorem releaseDesc_some_dmaR_self (st : RxSt) (idx nb nd : Nat) :
    (releaseDesc st idx (some (nb, nd))).ring.dmaR idx =
      { st.ring.dmaR idx with addr := nd, done := false,
                              plen := st.ring.bufSize } := by
  simp [releaseDesc]

/-- Claim C4: receive polling never consumes a ring slot without a ready
replacement buffer.  (1) The drop-in-place release rewrites only the
descriptor — same buffer pointer, same buffer address field semantics,
re-initialised to the not-done state with the full buffer length — and
hands no packet onward.  (2) When the iteration reaches the
replacement-allocation point (descriptor done, valid source MAC, not
resetting) and the allocation (or, on the legacy path, the fragment
allocation or its bus mapping) fails, the iteration is exactly the
drop-in-place release with the receive-drop counter incremented.  (3)
Whenever a packet is handed onward, a successfully allocated replacement
buffer and its bus address have been installed in that very slot, and the
packet handed on is the old buffer of that slot. -/
theorem C4_rx_replacement_before_consume :
    (∀ (st : RxSt) (idx : Nat),
      (releaseDesc st idx none).ring.dataR = st.ring.dataR ∧
      (releaseDesc st idx none).ring.dmaR idx =
        { st.ring.dmaR idx with done := false,
                                plen := st.ring.bufSize } ∧
      (releaseDesc st idx none).delivered = st.delivered) ∧
    (∀ cfg env xenv renv (st : RxSt) (idx : Nat),
      idx = (st.ring.calcIdx + 1) % st.ring.dmaSizeR →
      (st.ring.dmaR idx).done = true →
      ¬(rxMacOf cfg (st.ring.dmaR idx) < 0 ∨
        (MTK_MAX_DEVS : Int) ≤ rxMacOf cfg (st.ring.dmaR idx) ∨
        !cfg.devPresent (rxMacOf cfg (st.ring.dmaR idx)).toNat) →
      st.resetting = false →
      ((st.ring.pagePool = true → renv.alloc st.itCnt = none →
        mtk_poll_rx_step cfg env xenv renv st =
          some (releaseDesc { st with rxDropped := st.rxDropped + 1 } idx
            none)) ∧
       (st.ring.pagePool = false → renv.fragAlloc st.itCnt = none →
        mtk_poll_rx_step cfg env xenv renv st =
          some (releaseDesc { st with rxDropped := st.rxDropped + 1 } idx
            none)) ∧
       (st.ring.pagePool = false → renv.rxMap st.itCnt = none →
        mtk_poll_rx_step cfg env xenv renv st =
          some (releaseDesc { st with rxDropped := st.rxDropped + 1 } idx
            none)))) ∧
    (∀ cfg env xenv renv (st st1 : RxSt) (idx : Nat),
      idx = (st.ring.calcIdx + 1) % st.ring.dmaSizeR →
      mtk_poll_rx_step cfg env xenv renv st = some st1 →
      st1.delivered ≠ st.delivered →
      st1.delivered = st.delivered ++
        [(st.ring.dataR idx, (st.ring.dmaR idx).plen)] ∧
      ∃ nb nd, st1.ring.dataR idx = nb ∧
        (st1.ring.dmaR idx).addr = nd ∧
        ((st.ring.pagePool = true ∧ renv.alloc st.itCnt = some (nb, nd)) ∨
         (st.ring.pagePool = false ∧ renv.fragAlloc st.itCnt = some nb ∧
           renv.rxMap st.itCnt = some nd))) := by
  refine ⟨?_, ?_, ?_⟩
  · intro st idx
    exact ⟨by simp, by simp, by simp⟩
  · intro cfg env xenv renv st idx hidx hdone hmac hres
    subst hidx
    refine ⟨?_, ?_, ?_⟩
    · intro hpp halloc
      simp only [mtk_poll_rx_step]
      rw [if_neg (by simp [hdone]), if_neg hmac, if_neg (by simp [hres]),
        if_pos hpp, halloc]
    · intro hpp halloc
      simp only [mtk_poll_rx_step]
      rw [if_neg (by simp [hdone]), if_neg hmac, if_neg (by simp [hres]),
        if_neg (by simp [hpp]), halloc]
    · intro hpp hmap
      simp only [mtk_poll_rx_step]
      rw [if_neg (by simp [hdone]), if_neg hmac, if_neg (by simp [hres]),
        if_neg (by simp [hpp])]
      rcases hf : renv.fragAlloc st.itCnt with _ | nb
      · rfl
      · rw [hmap]
  · intro cfg env xenv renv st st1 idx hidx hstep hne
    subst hidx
    cases hdone : (st.ring.dmaR ((st.ring.calcIdx + 1) %
        st.ring.dmaSizeR)).done with
    | false => simp [mtk_poll_rx_step, hdone] at hstep
    | true =>
      cases hpp : st.ring.pagePool with
      | true =>
        rcases halloc : renv.alloc st.itCnt with _ | ⟨nb, nd⟩
        · simp [mtk_poll_rx_step, hdone, hpp, halloc] at hstep
          repeat' split at hstep
          all_goals first
            | (injection hstep with h; subst h)
            | subst hstep
          all_goals exact absurd (by simp) hne
        · simp [mtk_poll_rx_step, hdone, hpp, halloc] at hstep
          repeat' split at hstep
          all_goals first
            | (injection hstep with h; subst h)
            | subst hstep
          all_goals first
            | (exfalso; apply hne; simp; done)
            | exact ⟨by simp, nb, nd, by simp, by simp,
                Or.inl ⟨rfl, rfl⟩⟩
      | false =>
        rcases hf : renv.fragAlloc st.itCnt with _ | nb
        · simp [mtk_poll_rx_step, hdone, hpp, hf] at hstep
          repeat' split at hstep
          all_goals first
            | (injection hstep with h; subst h)
            | subst hstep
          all_goals exact absurd (by simp) hne
        · rcases hm : renv.rxMap st.itCnt with _ | nd
          · simp [mtk_poll_rx_step, hdone, hpp, hf, hm] at hstep
            repeat' split at hstep
            all_goals first
              | (injection hstep with h; subst h)
              | subst hstep
            all_goals exact absurd (by simp) hne
          · simp [mtk_poll_rx_step, hdone, hpp, hf, hm] at hstep
            repeat' split at hstep
            all_goals first
              | (injection hstep with h; subst h)
              | subst hstep
            all_goals first
              | (exfalso; apply hne; simp; done)
              | exact ⟨by simp, nb, nd, by simp, by simp,
                  Or.inr ⟨rfl, rfl, rfl⟩⟩

/-- Concrete run of the replacement-before-consume property: on the state
whose next slot (index 0) holds a completed descriptor, with every
replacement allocation failing, the iteration drops the packet in place
and bumps the receive-drop counter. -/
theorem C4_rx_replacement_witness :
    mtk_poll_rx_step rxCfgW envAllMaps xenvPass renvFail rxStDone =
      some (releaseDesc
        { rxStDone with rxDropped := rxStDone.rxDropped + 1 } 0 none) :=
  (C4_rx_replacement_before_consume.2.1 rxCfgW envAllMaps xenvPass renvFail
      rxStDone 0 (by decide) (by decide) (by decide) (by decide)).1
    (by decide) (by decide)

/-! ### Projection lemmas for the err_dma unwind body -/

@[simp] theorem errStep_nextFree (s : TxSt) (i : Nat) :
    (err_dma_step s i).ring.nextFree = s.ring.nextFree := by
  simp [err_dma_step]

@[simp] theorem errStep_lastFree (s : TxSt) (i : Nat) :
    (err_dma_step s i).ring.lastFree = s.ring.lastFree := by
  simp [err_dma_step]

@[simp] theorem errStep_freeCount (s : TxSt) (i : Nat) :
    (err_dma_step s i).ring.freeCount = s.ring.freeCount := by
  simp [err_dma_step]

@[simp] theorem errStep_dmaSize (s : TxSt) (i : Nat) :
    (err_dma_step s i).ring.dmaSize = s.ring.dmaSize := by
  simp [err_dma_step]

theorem errStep_dma_ne (s : TxSt) (i j : Nat) (h : j ≠ i) :
    (err_dma_step s i).ring.dma j = s.ring.dma j := by
  simp [err_dma_step, h]

@[simp] theorem errStep_dma_self (s : TxSt) (i : Nat) :
    (err_dma_step s i).ring.dma i =
      { s.ring.dma i with plen := 0, ls0 := true, ownerCpu := true,
                          qid := 0 } := by
  simp [err_dma_step]

theorem errStep_txd2 (s : TxSt) (i j : Nat) :
    ((err_dma_step s i).ring.dma j).txd2 = (s.ring.dma j).txd2 := by
  by_cases h : j = i
  · subst h
    simp
  · rw [errStep_dma_ne s i j h]

theorem errStep_buf_ne (s : TxSt) (i j : Nat) (h : j ≠ i) :
    (err_dma_step s i).ring.buf j = s.ring.buf j := by
  simp [err_dma_step, unmap_buf_ne s i j h, h]

@[simp] theorem errStep_buf_self (s : TxSt) (i : Nat) :
    (err_dma_step s i).ring.buf i =
      { s.ring.buf i with flagsSingle0 := false, flagsPage0 := false,
                          data := .null } := by
  simp [err_dma_step]

theorem errStep_mapped (s : TxSt) (i : Nat) :
    (err_dma_step s i).mapped =
      if (s.ring.buf i).flagsSingle0 ∨ (s.ring.buf i).flagsPage0 then
        s.mapped.erase (pairOf s i)
      else s.mapped := by
  simp [err_dma_step, unmap_mapped]

/-! ### Modular arithmetic of the ring chain -/

/-- Walking k slots from a fixed start is injective while the walk is
shorter than the ring. -/
theorem shift_mod_inj (N head a b : Nat) (hab : a ≤ b) (hlt : b - a < N)
    (h : (head + a) % N = (head + b) % N) : a = b := by
  have h2 : a ≡ b [MOD N] := Nat.ModEq.add_left_cancel' head h
  have h3 : N ∣ b - a := (Nat.modEq_iff_dvd' hab).mp h2
  have h4 : b - a = 0 := Nat.eq_zero_of_dvd_of_lt h3 hlt
  omega

theorem shift_mod_ne (N head a b : Nat) (hab : a < b) (hlt : b - a < N) :
    (head + a) % N ≠ (head + b) % N := fun h =>
  absurd (shift_mod_inj N head a b (Nat.le_of_lt hab) hlt h)
    (Nat.ne_of_lt hab)

/-- Every slot of the ring is reached by walking fewer than N slots from
any in-range start. -/
theorem shift_mod_surj (N head lf : Nat) (hhead : head < N) (hlf : lf < N) :
    ∃ k, k < N ∧ (head + k) % N = lf := by
  by_cases hle : head ≤ lf
  · refine ⟨lf - head, by omega, ?_⟩
    have e : head + (lf - head) = lf := by omega
    rw [e]
    exact Nat.mod_eq_of_lt hlf
  · refine ⟨N + lf - head, by omega, ?_⟩
    have e : head + (N + lf - head) = N + lf := by omega
    rw [e, Nat.add_mod_left]
    exact Nat.mod_eq_of_lt hlf

/-- A chain walk from the producer that avoids the consumer sentinel at
every step is shorter than the ring. -/
theorem window_bound (N head lf n : Nat) (hhead : head < N) (hlf : lf < N)
    (hh : head ≠ lf)
    (hwin : ∀ k, 1 ≤ k → k ≤ n → (head + k) % N ≠ lf) : n < N := by
  by_contra hge
  push_neg at hge
  obtain ⟨k, hk, he⟩ := shift_mod_surj N head lf hhead hlf
  rcases Nat.eq_zero_or_pos k with rfl | hkpos
  · rw [Nat.add_zero, Nat.mod_eq_of_lt hhead] at he
    exact hh he
  · exact hwin k hkpos (by omega) he

/-! ### The multiset of recorded unmap pairs of a slot window -/

@[simp] theorem touchedPairs_zero (s : TxSt) (head N : Nat) :
    touchedPairs s head 0 N = 0 := by
  simp [touchedPairs]

theorem touchedPairs_ext (s' s : TxSt) (head n N : Nat)
    (h : ∀ k, k < n →
      pairOf s' ((head + k) % N) = pairOf s ((head + k) % N)) :
    touchedPairs s' head n N = touchedPairs s head n N := by
  unfold touchedPairs
  congr 1
  refine List.map_congr_left ?_
  intro k hk
  rw [List.mem_range] at hk
  exact h k hk

theorem touchedPairs_one (s : TxSt) (head N : Nat) :
    touchedPairs s head 1 N = {pairOf s (head % N)} := by
  have e : List.range 1 = [0] := rfl
  simp [touchedPairs, e]

/-- Splitting the window at its first slot. -/
theorem touchedPairs_succ_front (s : TxSt) (head n N : Nat) :
    touchedPairs s head (n + 1) N =
      pairOf s (head % N) ::ₘ touchedPairs s (head + 1) n N := by
  unfold touchedPairs
  rw [Multiset.cons_coe]
  congr 1
  rw [List.range_succ_eq_map, List.map_cons, List.map_map]
  refine congrArg₂ List.cons ?_ ?_
  · simp
  · refine List.map_congr_left ?_
    intro k hk
    simp only [Function.comp_apply]
    rw [show head + Nat.succ k = head + 1 + k from by omega]

/-- Splitting the window at its last slot. -/
theorem touchedPairs_succ_back (s : TxSt) (head n N : Nat) :
    touchedPairs s head (n + 1) N =
      pairOf s ((head + n) % N) ::ₘ touchedPairs s head n N := by
  unfold touchedPairs
  rw [List.range_succ, List.map_append, List.map_cons, List.map_nil,
    ← Multiset.coe_add, Multiset.coe_singleton, add_comm,
    Multiset.singleton_add]

theorem Restored_rfl (s : TxSt) : Restored s s :=
  ⟨rfl, rfl, rfl, rfl, fun _ h => absurd rfl h, fun _ h => absurd rfl h⟩

theorem MapInv.toUInv (s0 : TxSt) (head n : Nat) (s : TxSt)
    (h : MapInv s0 head n s) : UInv s0 head n s := by
  obtain ⟨hsz, hnf, hlf, hfc, hn1, hnN, hunt, hchain, hflags, hwin, hmap⟩ := h
  exact ⟨hnf, hlf, hfc,
    fun i hi => ⟨Or.inl (hunt i hi).1, Or.inl (hunt i hi).2⟩,
    hchain, hflags, hmap⟩

/-- The chunk loop of mtk_tx_map preserves the writing invariant: started
with n slots written and the current descriptor the last of them, every
outcome satisfies ChunkPost. -/
theorem txMapChunks_post (soc : SocData) (env : DmaEnv) (queue macId : Nat)
    (isLast : Bool) (s0 : TxSt) (hwf : WFRing s0)
    (hh : s0.ring.nextFree ≠ s0.ring.lastFree) :
    ∀ fuel s txd nDesc fragSize n,
      MapInv s0 s0.ring.nextFree n s →
      txd = (s0.ring.nextFree + (n - 1)) % s0.ring.dmaSize →
      ChunkPost s0 (txMapChunks soc env queue macId isLast fuel s txd nDesc
        fragSize) := by
  intro fuel
  induction fuel with
  | zero =>
    intro s txd nDesc fragSize n hinv htxd
    exact ⟨n, hinv, htxd⟩
  | succ fuel ih =>
    intro s txd nDesc fragSize n hinv htxd
    simp only [txMapChunks]
    by_cases hfs : fragSize = 0
    · rw [if_pos hfs]
      exact ⟨n, hinv, htxd⟩
    · rw [if_neg hfs]
      have hinv0 := hinv
      obtain ⟨hsz, hnf, hlf, hfc, hn1, hnN, hunt, hchain, hflags, hwin,
        hmap⟩ := hinv0
      have hN : 0 < s0.ring.dmaSize := hwf.1
      have hhead : s0.ring.nextFree < s0.ring.dmaSize := hwf.2.1
      have hlfB : s0.ring.lastFree < s0.ring.dmaSize := hwf.2.2.1
      have htxd2 : (s.ring.dma txd).txd2 =
          (s0.ring.nextFree + n) % s0.ring.dmaSize := by
        have hc := hchain (n - 1) (by omega)
        rw [htxd, hc, Nat.mod_add_mod]
        congr 1
        omega
      rw [htxd2]
      by_cases hend : (s0.ring.nextFree + n) % s0.ring.dmaSize =
          s.ring.lastFree
      · rw [if_pos hend]
        exact ⟨n, hinv, rfl⟩
      · rw [if_neg hend]
        have hnlt : n < s0.ring.dmaSize := by
          refine window_bound s0.ring.dmaSize s0.ring.nextFree
            s0.ring.lastFree n hhead hlfB hh ?_
          intro k hk1 hkn
          rcases Nat.lt_or_ge k n with hlt | hge
          · exact hwin k hk1 hlt
          · have hkeq : k = n := by omega
            subst hkeq
            rw [← hlf]
            exact hend
        rcases hmo : env.mapOk s.mapCnt with _ | addr
        · rw [show dmaMapTx env s (min fragSize soc.dma_max_len) =
              (none, { s with mapCnt := s.mapCnt + 1 }) from by
            simp [dmaMapTx, hmo]]
          refine ⟨n, ?_, rfl⟩
          exact ⟨hsz, hnf, hlf, hfc, hn1, hnN, hunt, hchain, hflags, hwin,
            hmap⟩
        · rw [show dmaMapTx env s (min fragSize soc.dma_max_len) =
              (some addr,
               { s with
                 mapCnt := s.mapCnt + 1
                 mapped := (addr, min fragSize soc.dma_max_len) ::ₘ
                   s.mapped }) from by simp [dmaMapTx, hmo]]
          refine ih _ _ _ _ (n + 1) ?_ (by simp)
          have hto : ∀ k, k < n →
              (s0.ring.nextFree + n) % s0.ring.dmaSize ≠
              (s0.ring.nextFree + k) % s0.ring.dmaSize := fun k hk =>
            (shift_mod_ne _ _ k n hk (by omega)).symm
          have huse := hunt ((s0.ring.nextFree + n) % s0.ring.dmaSize) hto
          refine ⟨?_, ?_, ?_, ?_, by omega, by omega, ?_, ?_, ?_, ?_, ?_⟩
          · simpa using hsz
          · simpa using hnf
          · simpa using hlf
          · simpa using hfc
          · intro i hi
            have hit : i ≠ (s0.ring.nextFree + n) % s0.ring.dmaSize :=
              hi n (by omega)
            have hold := hunt i fun k hk => hi k (by omega)
            constructor
            · rw [setBuf_dma, setDesc_dma, upd_ne _ _ _ _ hit]
              exact hold.1
            · rw [setBuf_buf, setDesc_buf, upd_ne _ _ _ _ hit]
              exact hold.2
          · intro k hk
            rcases Nat.lt_or_ge k n with hkn | hge
            · have hne2 : (s0.ring.nextFree + k) % s0.ring.dmaSize ≠
                  (s0.ring.nextFree + n) % s0.ring.dmaSize :=
                shift_mod_ne _ _ k n hkn (by omega)
              rw [setBuf_dma, setDesc_dma, upd_ne _ _ _ _ hne2]
              exact hchain k hkn
            · have hkeq : k = n := by omega
              rw [hkeq, setBuf_dma, setDesc_dma, upd_self]
              have hdt : (s.ring.dma ((s0.ring.nextFree + n) %
                  s0.ring.dmaSize)).txd2 =
                  ((s0.ring.nextFree + n) % s0.ring.dmaSize + 1) %
                    s0.ring.dmaSize := by
                rw [huse.1]
                exact hwf.2.2.2 _ (Nat.mod_lt _ hN)
              simpa [mtk_tx_set_dma_desc_v1] using hdt
          · intro k hk
            rcases Nat.lt_or_ge k n with hkn | hge
            · have hne2 : (s0.ring.nextFree + k) % s0.ring.dmaSize ≠
                  (s0.ring.nextFree + n) % s0.ring.dmaSize :=
                shift_mod_ne _ _ k n hkn (by omega)
              rw [setBuf_buf, setDesc_buf, upd_ne _ _ _ _ hne2]
              exact hflags k hkn
            · have hkeq : k = n := by omega
              rw [hkeq, setBuf_buf, setDesc_buf, upd_self]
              right
              rfl
          · intro k hk1 hk2
            rcases Nat.lt_or_ge k n with hkn | hge
            · exact hwin k hk1 hkn
            · have hkeq : k = n := by omega
              rw [hkeq, ← hlf]
              exact hend
          · rw [setBuf_mapped, setDesc_mapped, touchedPairs_succ_back,
              Multiset.cons_add]
            show (addr, min fragSize soc.dma_max_len) ::ₘ s.mapped = _
            congr 1
            · simp [pairOf]
            · rw [hmap]
              congr 1
              refine (touchedPairs_ext _ s s0.ring.nextFree n
                s0.ring.dmaSize ?_).symm
              intro k hk
              have hne2 : (s0.ring.nextFree + k) % s0.ring.dmaSize ≠
                  (s0.ring.nextFree + n) % s0.ring.dmaSize :=
                shift_mod_ne _ _ k n hk (by omega)
              simp [pairOf, upd_ne _ _ _ _ hne2]

/-- The fragment loop of mtk_tx_map preserves the writing invariant. -/
theorem txMapFrags_post (soc : SocData) (env : DmaEnv) (queue macId : Nat)
    (s0 : TxSt) (hwf : WFRing s0)
    (hh : s0.ring.nextFree ≠ s0.ring.lastFree) :
    ∀ frags s txd nDesc n,
      MapInv s0 s0.ring.nextFree n s →
      txd = (s0.ring.nextFree + (n - 1)) % s0.ring.dmaSize →
      ChunkPost s0 (txMapFrags soc env queue macId s txd nDesc frags) := by
  intro frags
  induction frags with
  | nil =>
    intro s txd nDesc n hinv htxd
    exact ⟨n, hinv, htxd⟩
  | cons f rest ih =>
    intro s txd nDesc n hinv htxd
    have H := txMapChunks_post soc env queue macId rest.isEmpty s0 hwf hh f
      s txd nDesc f n hinv htxd
    simp only [txMapFrags]
    rcases hres : txMapChunks soc env queue macId rest.isEmpty f s txd
        nDesc f with ⟨sf, txdf⟩ | ⟨s1, txd1, n1⟩
    · rw [hres] at H
      exact H
    · rw [hres] at H
      simp only [ChunkPost] at H
      obtain ⟨m, hminv, htxd1⟩ := H
      exact ih s1 txd1 n1 m hminv htxd1

/-- The err_dma walk restores the pre-submission state from any state
satisfying the unwind invariant over a window of n not-yet-restored
slots, given fuel for the walk. -/
theorem err_dma_restores (s0 : TxSt) (hN : 0 < s0.ring.dmaSize) :
    ∀ n head s fuel, UInv s0 head n s → 1 ≤ n → n ≤ s0.ring.dmaSize →
      n ≤ fuel →
      Restored s0 (err_dma s (head % s0.ring.dmaSize)
        ((head + n) % s0.ring.dmaSize) fuel) := by
  intro n
  induction n with
  | zero =>
    intro head s fuel _ h1 _ _
    omega
  | succ n ih =>
    intro head s fuel hinv h1 hle hfuel
    obtain ⟨hnf, hlf, hfc, hunt, hchain, hflags, hmap⟩ := hinv
    cases fuel with
    | zero => omega
    | succ f =>
      simp only [err_dma]
      have hc0 : ((err_dma_step s (head % s0.ring.dmaSize)).ring.dma
          (head % s0.ring.dmaSize)).txd2 = (head + 1) % s0.ring.dmaSize := by
        rw [errStep_txd2]
        have hch := hchain 0 (by omega)
        rw [Nat.add_zero] at hch
        rw [hch, Nat.mod_add_mod]
      rw [hc0]
      have hfl0 := hflags 0 (by omega)
      rw [Nat.add_zero] at hfl0
      rcases Nat.eq_zero_or_pos n with rfl | hn
      · rw [if_pos (by norm_num)]
        refine ⟨?_, ?_, ?_, ?_, ?_, ?_⟩
        · rw [errStep_nextFree]
          exact hnf
        · rw [errStep_lastFree]
          exact hlf
        · rw [errStep_freeCount]
          exact hfc
        · rw [errStep_mapped, if_pos hfl0, hmap, touchedPairs_one,
            Multiset.singleton_add, Multiset.erase_cons_head]
        · intro i hne
          by_cases hic : i = head % s0.ring.dmaSize
          · subst hic
            rw [errStep_dma_self]
            exact ⟨rfl, rfl, rfl⟩
          · have hs : s.ring.dma i = s0.ring.dma i ∨
                hostFreeDesc (s.ring.dma i) := by
              refine (hunt i ?_).1
              intro k hk
              have hk0 : k = 0 := by omega
              subst hk0
              rw [Nat.add_zero]
              exact hic
            rw [errStep_dma_ne _ _ _ hic] at hne ⊢
            rcases hs with heq | hfree
            · exact absurd heq hne
            · exact hfree
        · intro i hne
          by_cases hic : i = head % s0.ring.dmaSize
          · subst hic
            rw [errStep_buf_self]
            exact ⟨rfl, rfl, rfl⟩
          · have hs : s.ring.buf i = s0.ring.buf i ∨
                cleanTxBuf (s.ring.buf i) := by
              refine (hunt i ?_).2
              intro k hk
              have hk0 : k = 0 := by omega
              subst hk0
              rw [Nat.add_zero]
              exact hic
            rw [errStep_buf_ne _ _ _ hic] at hne ⊢
            rcases hs with heq | hfree
            · exact absurd heq hne
            · exact hfree
      · have hneq : (head + 1) % s0.ring.dmaSize ≠
            (head + (n + 1)) % s0.ring.dmaSize :=
          shift_mod_ne _ _ 1 (n + 1) (by omega) (by omega)
        rw [if_neg hneq]
        have e2 : (head + (n + 1)) % s0.ring.dmaSize =
            ((head + 1) + n) % s0.ring.dmaSize := by
          congr 1
          omega
        rw [e2]
        refine ih (head + 1) _ f ⟨?_, ?_, ?_, ?_, ?_, ?_, ?_⟩ (by omega)
          (by omega) (by omega)
        · rw [errStep_nextFree]
          exact hnf
        · rw [errStep_lastFree]
          exact hlf
        · rw [errStep_freeCount]
          exact hfc
        · intro i hi
          by_cases hic : i = head % s0.ring.dmaSize
          · subst hic
            rw [errStep_dma_self, errStep_buf_self]
            exact ⟨Or.inr ⟨rfl, rfl, rfl⟩, Or.inr ⟨rfl, rfl, rfl⟩⟩
          · rw [errStep_dma_ne _ _ _ hic, errStep_buf_ne _ _ _ hic]
            refine hunt i ?_
            intro k hk
            rcases Nat.eq_zero_or_pos k with rfl | hkpos
            · rw [Nat.add_zero]
              exact hic
            · have e3 : head + k = head + 1 + (k - 1) := by omega
              rw [e3]
              exact hi (k - 1) (by omega)
        · intro k hk
          rw [errStep_txd2]
          have e4 : head + 1 + k = head + (k + 1) := by omega
          rw [e4]
          exact hchain (k + 1) (by omega)
        · intro k hk
          have hne5 : (head + 1 + k) % s0.ring.dmaSize ≠
              head % s0.ring.dmaSize := by
            have h6 := shift_mod_ne s0.ring.dmaSize head 0 (k + 1)
              (by omega) (by omega)
            rw [Nat.add_zero] at h6
            have e5 : head + 1 + k = head + (k + 1) := by omega
            rw [e5]
            exact h6.symm
          rw [errStep_buf_ne _ _ _ hne5]
          have e4 : head + 1 + k = head + (k + 1) := by omega
          rw [e4]
          exact hflags (k + 1) (by omega)
        · rw [errStep_mapped, if_pos hfl0, hmap, touchedPairs_succ_front,
            Multiset.cons_add, Multiset.erase_cons_head]
          congr 1
          refine (touchedPairs_ext _ s (head + 1) n s0.ring.dmaSize
            ?_).symm
          intro k hk
          have hne7 : (head + 1 + k) % s0.ring.dmaSize ≠
              head % s0.ring.dmaSize := by
            have h6 := shift_mod_ne s0.ring.dmaSize head 0 (k + 1)
              (by omega) (by omega)
            rw [Nat.add_zero] at h6
            have e5 : head + 1 + k = head + (k + 1) := by omega
            rw [e5]
            exact h6.symm
          simp [pairOf, errStep_buf_ne _ _ _ hne7]

/-- A failing fragment loop followed by the err_dma walk restores the
pre-submission state. -/
theorem tx_map_fail_restores (soc : SocData) (env : DmaEnv)
    (queue macId : Nat) (s0 : TxSt) (hwf : WFRing s0)
    (hh : s0.ring.nextFree ≠ s0.ring.lastFree) (s4 : TxSt)
    (frags : List Nat) (hinit : MapInv s0 s0.ring.nextFree 1 s4)
    (sf : TxSt) (txdf : Nat)
    (hfr : txMapFrags soc env queue macId s4 s0.ring.nextFree 1 frags =
      .fail sf txdf) :
    Restored s0 (err_dma sf s0.ring.nextFree txdf sf.ring.dmaSize) := by
  have htxd0 : s0.ring.nextFree =
      (s0.ring.nextFree + (1 - 1)) % s0.ring.dmaSize := by
    simp [Nat.mod_eq_of_lt hwf.2.1]
  have H := txMapFrags_post soc env queue macId s0 hwf hh frags s4
    s0.ring.nextFree 1 1 hinit htxd0
  rw [hfr] at H
  simp only [ChunkPost] at H
  obtain ⟨m, hminv, htxdf⟩ := H
  subst htxdf
  have h1m : 1 ≤ m := hminv.2.2.2.2.1
  have hmN : m ≤ s0.ring.dmaSize := hminv.2.2.2.2.2.1
  have hsz : sf.ring.dmaSize = s0.ring.dmaSize := hminv.1
  have hcall := err_dma_restores s0 hwf.1 m s0.ring.nextFree sf
    sf.ring.dmaSize (MapInv.toUInv s0 s0.ring.nextFree m sf hminv) h1m hmN
    (by omega)
  rw [Nat.mod_eq_of_lt hwf.2.1] at hcall
  exact hcall

/-- Claim C1: if a transmit submission fails partway through building its
descriptor chain — a bus-address mapping failure on the head or on some
fragment chunk, or running out of chain slots at the consumer sentinel —
then every slot written by this submission is unwound (its buffer
unmapped and the slot back in the empty host-owned state), the producer
pointer, consumer sentinel, free-slot counter and the live-mapping
multiset are exactly as before the submission began, and the call returns
OutOfMemory.  Stated for any well-formed ring: whenever mtk_tx_map
reports -ENOMEM, the resulting state is a restoration of the input
state. -/
theorem C1_partial_failure_unwound (soc : SocData) (env : DmaEnv)
    (macId : Nat) (s : TxSt) (skb : Skb) (gso : Bool) (hwf : WFRing s) :
    (mtk_tx_map soc env macId s skb gso).1 = .enomem →
    Restored s (mtk_tx_map soc env macId s skb gso).2 := by
  intro hres
  simp only [mtk_tx_map] at hres ⊢
  split at hres
  · rename_i h0
    rw [if_pos h0]
    exact Restored_rfl s
  · rename_i h0
    rw [if_neg h0]
    split at hres
    · rename_i s2 hdm
      rcases hmo : env.mapOk s.mapCnt with _ | addr0
      · simp only [dmaMapTx, TxSt.setBuf] at hdm
        simp only [hmo] at hdm
        simp only [Prod.mk.injEq] at hdm
        obtain ⟨-, hs2⟩ := hdm
        subst hs2
        refine ⟨rfl, rfl, rfl, rfl, fun i h => absurd rfl h, ?_⟩
        intro i hbne
        by_cases hic : i = s.ring.nextFree
        · subst hic
          simp [TxSt.setBuf, cleanTxBuf, emptyTxBuf]
        · simp [TxSt.setBuf, upd_ne _ _ _ _ hic] at hbne
      · simp only [dmaMapTx, TxSt.setBuf] at hdm
        simp only [hmo] at hdm
        simp at hdm
    · rename_i addr s2 hdm
      rcases hmo : env.mapOk s.mapCnt with _ | addr0
      · simp only [dmaMapTx, TxSt.setBuf] at hdm
        simp only [hmo] at hdm
        simp at hdm
      · simp only [dmaMapTx, TxSt.setBuf] at hdm
        simp only [hmo] at hdm
        simp only [Prod.mk.injEq, Option.some.injEq] at hdm
        obtain ⟨ha, hs2⟩ := hdm
        subst ha
        subst hs2
        split at hres
        · rename_i sf txdf hfr
          show Restored s (err_dma sf s.ring.nextFree txdf
            sf.ring.dmaSize)
          refine tx_map_fail_restores soc env skb.queue macId s hwf h0 _
            skb.frags ?_ sf txdf hfr
          have hnfN : s.ring.nextFree < s.ring.dmaSize := hwf.2.1
          have hN : 0 < s.ring.dmaSize := hwf.1
          have hmod : s.ring.nextFree % s.ring.dmaSize = s.ring.nextFree :=
            Nat.mod_eq_of_lt hnfN
          refine ⟨by simp [TxSt.setBuf], by simp [TxSt.setBuf],
            by simp [TxSt.setBuf], by simp [TxSt.setBuf], by omega,
            by omega, ?_, ?_, ?_, ?_, ?_⟩
          · intro i hi
            have hine : i ≠ s.ring.nextFree := by
              have hi0 := hi 0 (by omega)
              rw [Nat.add_zero, hmod] at hi0
              exact hi0
            constructor
            · simp [TxSt.setBuf, TxSt.setDesc, upd_ne _ _ _ _ hine]
            · simp [TxSt.setBuf, TxSt.setDesc, upd_ne _ _ _ _ hine]
          · intro k hk
            have hk0 : k = 0 := by omega
            subst hk0
            have e0 : (s.ring.nextFree + 0) % s.ring.dmaSize =
                s.ring.nextFree := by
              rw [Nat.add_zero]
              exact hmod
            rw [e0]
            have hchain0 : (s.ring.dma s.ring.nextFree).txd2 =
                (s.ring.nextFree + 1) % s.ring.dmaSize :=
              hwf.2.2.2 _ hnfN
            simpa [TxSt.setBuf, TxSt.setDesc, mtk_tx_set_dma_desc_v1]
              using hchain0
          · intro k hk
            have hk0 : k = 0 := by omega
            subst hk0
            have e0 : (s.ring.nextFree + 0) % s.ring.dmaSize =
                s.ring.nextFree := by
              rw [Nat.add_zero]
              exact hmod
            rw [e0]
            left
            simp [TxSt.setBuf, TxSt.setDesc]
          · intro k hk1 hk2
            omega
          · rw [touchedPairs_one, Multiset.singleton_add, hmod]
            simp [TxSt.setBuf, TxSt.setDesc, pairOf]
        · rename_i s5 txd5 n5 hfr
          simp at hres

/-- Concrete run of the unwind theorem: on a fresh depth-8 ring, a
two-fragment packet whose second bus-mapping attempt fails is reported
OutOfMemory with the pre-submission state restored. -/
theorem C1_partial_failure_witness :
    WFRing (mtk_tx_alloc 8) ∧
    (mtk_tx_map socW envSecondMapFails 0 (mtk_tx_alloc 8) skbC1 false).1 =
      .enomem ∧
    Restored (mtk_tx_alloc 8)
      (mtk_tx_map socW envSecondMapFails 0 (mtk_tx_alloc 8) skbC1
        false).2 :=
  ⟨⟨by decide, by decide, by decide, by decide⟩, by decide,
   C1_partial_failure_unwound socW envSecondMapFails 0 (mtk_tx_alloc 8)
     skbC1 false ⟨by decide, by decide, by decide, by decide⟩ (by decide)⟩

end MtkEth
